import Mathlib

/-!
Verification of the character-set transcoder in
`Source/vtkDICOMCharacterSet.cxx` (vtk-dicom).

Byte strings are modelled as `List Nat`; every fetch of an
`unsigned char` from the input takes the value modulo 256, matching the
C semantics of reading a byte.  Bit operations on small values are
translated to arithmetic on `Nat` (`x & 0x3F` becomes `x % 64`,
`x >> 6` becomes `x / 64`, masked-range tests such as
`(x & 0xE0) == 0xC0` become `0xC0 ≤ x ∧ x < 0xE0`, which agree for
byte values).

The static conversion tables (`vtkDICOMCharacterSetTables.h`) and the
enum constants of the header `vtkDICOMCharacterSet.h` are not part of
the available source; tables are taken as parameters and the enum
constants are modelled from the spec where they are needed.
-/

set_option maxHeartbeats 1000000
set_option maxRecDepth 2048
set_option linter.unreachableTactic false
set_option linter.unusedTactic false

namespace VtkDicom

/-- `UnicodeToUTF8` (vtkDICOMCharacterSet.cxx:709-740): encode one code
point as UTF-8 bytes; out-of-range input is written as U+FFFD. -/
def UnicodeToUTF8 (code : Nat) : List Nat :=
  if code ≤ 0x7F then
    [code]
  else if code ≤ 0x7FF then
    [0xC0 + code / 64, 0x80 + code % 64]
  else if code ≤ 0xFFFF then
    [0xE0 + code / 4096, 0x80 + code / 64 % 64, 0x80 + code % 64]
  else if code ≤ 0x10FFFF then
    [0xF0 + code / 262144, 0x80 + code / 4096 % 64,
     0x80 + code / 64 % 64, 0x80 + code % 64]
  else
    [0xEF, 0xBF, 0xBD]

/-- Two-byte tail of `UTF8ToUnicode` (cxx:761-778), entered with a lead
byte `c0` in 0xC2..0xDF (the overlong leads 0xC0/0xC1 are rejected
before the tail is read). -/
def utf8Dec2Tail (c0 : Nat) : List Nat → Nat × Nat
  | [] => (0xFFFE, 1)
  | b1 :: _ =>
    let s := b1 % 256
    if 0x80 ≤ s ∧ s < 0xC0 then (c0 % 32 * 64 + s % 64, 2)
    else (0xFFFF, 1)

/-- Surrogate-pair completion of `UTF8ToUnicode` (cxx:802-836), entered
after a complete 3-byte sequence decoded to the high surrogate `code`. -/
def utf8DecPair (code : Nat) : List Nat → Nat × Nat
  | [] => (0xFFFE, 3)
  | b3 :: rest3 =>
    if b3 % 256 ≠ 0xED then (0xFFFF, 3)
    else
      match rest3 with
      | [] => (0xFFFE, 3)
      | b4 :: rest4 =>
        let t1 := b4 % 256
        if ¬(0xB0 ≤ t1 ∧ t1 < 0xC0) then (0xFFFF, 3)
        else
          match rest4 with
          | [] => (0xFFFE, 3)
          | b5 :: _ =>
            let t2 := b5 % 256
            if 0x80 ≤ t2 ∧ t2 < 0xC0 then
              (code % 1024 * 1024 + t1 % 16 * 64 + t2 % 64 + 0x10000, 6)
            else (0xFFFF, 3)

/-- Three-byte tail of `UTF8ToUnicode` (cxx:779-840), entered with a
lead byte `c0` in 0xE0..0xEF. -/
def utf8Dec3Tail (c0 : Nat) : List Nat → Nat × Nat
  | [] => (0xFFFE, 1)
  | b1 :: rest1 =>
    let s := b1 % 256
    -- good = ((code | (s & 0x20)) != 0) & ((s & 0xC0) == 0x80)
    if (c0 % 16 = 0 ∧ s % 64 < 32) ∨ ¬(0x80 ≤ s ∧ s < 0xC0) then
      (0xFFFF, 1)
    else
      match rest1 with
      | [] => (0xFFFE, 2)
      | b2 :: rest2 =>
        let s2 := b2 % 256
        if ¬(0x80 ≤ s2 ∧ s2 < 0xC0) then (0xFFFF, 2)
        else
          let code := (c0 % 16 * 64 + s % 64) * 64 + s2 % 64
          if 0xD800 ≤ code ∧ code < 0xDC00 then utf8DecPair code rest2
          else (code, 3)

/-- Four-byte tail of `UTF8ToUnicode` (cxx:841-880), entered with a
lead byte `c0` in 0xF0..0xF7. -/
def utf8Dec4Tail (c0 : Nat) : List Nat → Nat × Nat
  | [] => (0xFFFE, 1)
  | b1 :: rest1 =>
    let s := b1 % 256
    -- good = ((code | (s & 0x30)) != 0) & ((s & 0xC0) == 0x80)
    if (c0 % 8 = 0 ∧ s % 64 < 16) ∨ ¬(0x80 ≤ s ∧ s < 0xC0) then
      (0xFFFF, 1)
    else
      match rest1 with
      | [] => (0xFFFE, 2)
      | b2 :: rest2 =>
        let s2 := b2 % 256
        if ¬(0x80 ≤ s2 ∧ s2 < 0xC0) then (0xFFFF, 2)
        else
          match rest2 with
          | [] => (0xFFFE, 3)
          | b3 :: _ =>
            let s3 := b3 % 256
            if ¬(0x80 ≤ s3 ∧ s3 < 0xC0) then (0xFFFF, 3)
            else
              let code :=
                ((c0 % 8 * 64 + s % 64) * 64 + s2 % 64) * 64 + s3 % 64
              if 0x10FFFF < code then (0xFFFF, 4) else (code, 4)

/-- `UTF8ToUnicode` (vtkDICOMCharacterSet.cxx:747-896): decode one UTF-8
sequence from the front of the byte list.  Returns the code point and
the number of bytes consumed.  Malformed input yields code 0xFFFF,
input truncated by the end of the buffer yields 0xFFFE, and an encoded
UTF-16 high surrogate followed by an encoded low surrogate is combined
into a single code point (the 6-byte CESU-8 form). -/
def UTF8ToUnicode : List Nat → Nat × Nat
  | [] => (0, 0)
  | b0 :: rest =>
    let c0 := b0 % 256
    if c0 < 0x80 then (c0, 1)
    else if 0xC0 ≤ c0 ∧ c0 < 0xE0 then
      -- 2 bytes; good = ((code & 0x0780) != 0) rejects leads 0xC0, 0xC1
      if c0 % 32 < 2 then (0xFFFF, 1) else utf8Dec2Tail c0 rest
    else if 0xE0 ≤ c0 ∧ c0 < 0xF0 then utf8Dec3Tail c0 rest
    else if 0xF0 ≤ c0 ∧ c0 < 0xF8 then utf8Dec4Tail c0 rest
    else (0xFFFF, 1)

/-!
Spec-side classification of one UTF-8 sequence, written from the UTF-8
grammar (RFC 3629 lead/continuation ranges) together with the surrogate
behaviour the spec describes: an encoded high surrogate must be
completed by an encoded low surrogate and the pair denotes one
supplementary code point; a lone encoded low surrogate decodes to its
own code-point value; a structurally complete 4-byte sequence whose
value exceeds 0x10FFFF is malformed.
-/

/-- Result of classifying the start of a byte string against the UTF-8
grammar: `malformed n` / `truncated n` say how many bytes the decoder
consumes, `decoded c n` gives the code point and its length. -/
inductive Utf8Class where
  | malformed (n : Nat)
  | truncated (n : Nat)
  | decoded (c n : Nat)
  deriving DecidableEq, Repr

/-- Interpretation of a classification as the decoder's
(code, consumed) pair, using the two reserved sentinels. -/
def utf8ClassValue : Utf8Class → Nat × Nat
  | .malformed n => (0xFFFF, n)
  | .truncated n => (0xFFFE, n)
  | .decoded c n => (c, n)

/-- Spec-side classifier for the low-surrogate completion of a high
surrogate `c`: the continuation must be `0xED 0xB0-0xBF 0x80-0xBF`. -/
def utf8ClassPair (c : Nat) : List Nat → Utf8Class
  | [] => .truncated 3
  | b3 :: rest3 =>
    if b3 % 256 ≠ 0xED then .malformed 3
    else
      match rest3 with
      | [] => .truncated 3
      | b4 :: rest4 =>
        let t1 := b4 % 256
        if ¬(0xB0 ≤ t1 ∧ t1 ≤ 0xBF) then .malformed 3
        else
          match rest4 with
          | [] => .truncated 3
          | b5 :: _ =>
            let t2 := b5 % 256
            if 0x80 ≤ t2 ∧ t2 ≤ 0xBF then
              .decoded (0x10000 + (c - 0xD800) * 1024 +
                (t1 - 0xB0) * 64 + (t2 - 0x80)) 6
            else .malformed 3

/-- Spec-side UTF-8 classifier; see the section comment above. -/
def utf8Classify : List Nat → Utf8Class
  | [] => .decoded 0 0
  | b0 :: rest =>
    let c0 := b0 % 256
    if c0 ≤ 0x7F then .decoded c0 1
    else if c0 < 0xC2 then .malformed 1  -- stray continuation or overlong lead
    else if c0 ≤ 0xDF then
      match rest with
      | [] => .truncated 1
      | b1 :: _ =>
        let s := b1 % 256
        if 0x80 ≤ s ∧ s ≤ 0xBF then
          .decoded ((c0 - 0xC0) * 64 + (s - 0x80)) 2
        else .malformed 1
    else if c0 ≤ 0xEF then
      match rest with
      | [] => .truncated 1
      | b1 :: rest1 =>
        let s := b1 % 256
        let lo := if c0 = 0xE0 then 0xA0 else 0x80
        if ¬(lo ≤ s ∧ s ≤ 0xBF) then .malformed 1
        else
          match rest1 with
          | [] => .truncated 2
          | b2 :: rest2 =>
            let s2 := b2 % 256
            if ¬(0x80 ≤ s2 ∧ s2 ≤ 0xBF) then .malformed 2
            else
              let c := (c0 - 0xE0) * 4096 + (s - 0x80) * 64 + (s2 - 0x80)
              if 0xD800 ≤ c ∧ c ≤ 0xDBFF then utf8ClassPair c rest2
              else .decoded c 3
    else if c0 ≤ 0xF7 then
      match rest with
      | [] => .truncated 1
      | b1 :: rest1 =>
        let s := b1 % 256
        let lo := if c0 = 0xF0 then 0x90 else 0x80
        if ¬(lo ≤ s ∧ s ≤ 0xBF) then .malformed 1
        else
          match rest1 with
          | [] => .truncated 2
          | b2 :: rest2 =>
            let s2 := b2 % 256
            if ¬(0x80 ≤ s2 ∧ s2 ≤ 0xBF) then .malformed 2
            else
              match rest2 with
              | [] => .truncated 3
              | b3 :: _ =>
                let s3 := b3 % 256
                if ¬(0x80 ≤ s3 ∧ s3 ≤ 0xBF) then .malformed 3
                else
                  let c := (c0 - 0xF0) * 262144 + (s - 0x80) * 4096 +
                    (s2 - 0x80) * 64 + (s3 - 0x80)
                  if 0x10FFFF < c then .malformed 4 else .decoded c 4
    else .malformed 1

/-!
Well-formed UTF-8 (the notion used by the spec's claims): a byte string
is well-formed when it is a concatenation of UTF-8 encodings of Unicode
scalar values — code points at most 0x10FFFF that are not UTF-16
surrogates.
-/

/-- A Unicode scalar value: encodable in well-formed UTF-8. -/
def OkCode (c : Nat) : Prop :=
  c ≤ 0x10FFFF ∧ ¬(0xD800 ≤ c ∧ c ≤ 0xDFFF)

instance (c : Nat) : Decidable (OkCode c) := by
  unfold OkCode; infer_instance

/-- Fueled well-formedness scan for UTF-8 byte strings, written from
the RFC 3629 grammar: canonical 1-4 byte sequences, no surrogates, no
truncated sequences.  Trailing bytes are fetched with out-of-range
default 256, which fails every continuation range check, so a
truncated final sequence is rejected without separate length tests. -/
def validRun : Nat → List Nat → Bool
  | 0, bs => bs.isEmpty
  | fuel + 1, bs =>
    match bs with
    | [] => true
    | b0 :: rest =>
      if b0 ≤ 0x7F then validRun fuel rest
      else if 0xC2 ≤ b0 ∧ b0 ≤ 0xDF then
        if 0x80 ≤ rest.getD 0 256 ∧ rest.getD 0 256 ≤ 0xBF then
          validRun fuel (rest.drop 1)
        else false
      else if 0xE0 ≤ b0 ∧ b0 ≤ 0xEF then
        if ((b0 = 0xE0 ∧ 0xA0 ≤ rest.getD 0 256 ∧ rest.getD 0 256 ≤ 0xBF) ∨
            (b0 = 0xED ∧ 0x80 ≤ rest.getD 0 256 ∧ rest.getD 0 256 ≤ 0x9F) ∨
            (b0 ≠ 0xE0 ∧ b0 ≠ 0xED ∧
             0x80 ≤ rest.getD 0 256 ∧ rest.getD 0 256 ≤ 0xBF)) ∧
           (0x80 ≤ rest.getD 1 256 ∧ rest.getD 1 256 ≤ 0xBF) then
          validRun fuel (rest.drop 2)
        else false
      else if 0xF0 ≤ b0 ∧ b0 ≤ 0xF4 then
        if ((b0 = 0xF0 ∧ 0x90 ≤ rest.getD 0 256 ∧ rest.getD 0 256 ≤ 0xBF) ∨
            (b0 = 0xF4 ∧ 0x80 ≤ rest.getD 0 256 ∧ rest.getD 0 256 ≤ 0x8F) ∨
            (b0 ≠ 0xF0 ∧ b0 ≠ 0xF4 ∧
             0x80 ≤ rest.getD 0 256 ∧ rest.getD 0 256 ≤ 0xBF)) ∧
           (0x80 ≤ rest.getD 1 256 ∧ rest.getD 1 256 ≤ 0xBF) ∧
           (0x80 ≤ rest.getD 2 256 ∧ rest.getD 2 256 ≤ 0xBF) then
          validRun fuel (rest.drop 3)
        else false
      else false

/-- Boolean well-formedness checker for UTF-8 byte strings. -/
def isValidUTF8 (bs : List Nat) : Bool := validRun bs.length bs

/-!
Case folding (`CaseFoldUnicode`, vtkDICOMCharacterSet.cxx:928-1468).
The C function computes up to three folded code points (`code`,
`code2`, `code3`) and appends their UTF-8 encodings; here the cascade
that computes the triple is `caseFoldTriple` and the emission is
`CaseFoldUnicode`.  A second/third code of 0 means "absent".
-/

/-- Lookup in an inline folding table (0 outside the range). -/
def foldTab (t : List Nat) (i : Nat) : Nat := t.getD i 0

/-- Fold block for `code ≤ 0xff` (latin-1, cxx:942-957). -/
def foldBk01 (code : Nat) : Nat × Nat × Nat :=
  if 0xC0 ≤ code ∧ code ≤ 0xDE ∧ code ≠ 0xD7 then (code + 0x20, 0, 0)
  else if code = 0xDF then (0x73, 0x73, 0)
  else if code = 0xB5 then (0x3BC, 0, 0)
  else (code, 0, 0)

/-- Fold block for `code ≤ 0x17f` (cxx:958-998). -/
def foldBk02 (code : Nat) : Nat × Nat × Nat :=
  if 0x100 ≤ code ∧ code ≤ 0x12F then (code / 2 * 2 + 1, 0, 0)
  else if code = 0x130 then (0x69, 0x307, 0)
  else if 0x132 ≤ code ∧ code ≤ 0x137 then (code / 2 * 2 + 1, 0, 0)
  else if 0x139 ≤ code ∧ code ≤ 0x148 then (code + code % 2, 0, 0)
  else if code = 0x149 then (0x2BC, 0x6E, 0)
  else if 0x14A ≤ code ∧ code ≤ 0x177 then (code / 2 * 2 + 1, 0, 0)
  else if code = 0x178 then (0xFF, 0, 0)
  else if 0x179 ≤ code ∧ code ≤ 0x17E then (code + code % 2, 0, 0)
  else if code = 0x17F then (0x73, 0, 0)
  else (code, 0, 0)

/-- Fold block for `code ≤ 0x36f` (cxx:999-1052). -/
def foldBk03 (code : Nat) : Nat × Nat × Nat :=
  if 0x180 ≤ code ∧ code ≤ 0x1CA then
    (foldTab [0x0180, 0x0253, 0x0183, 0x0183, 0x0185, 0x0185, 0x0254,
      0x0188, 0x0188, 0x0256, 0x0257, 0x018C, 0x018C, 0x018D, 0x01DD,
      0x0259, 0x025B, 0x0192, 0x0192, 0x0260, 0x0263, 0x0195, 0x0269,
      0x0268, 0x0199, 0x0199, 0x019A, 0x019B, 0x026F, 0x0272, 0x019E,
      0x0275, 0x01A1, 0x01A1, 0x01A3, 0x01A3, 0x01A5, 0x01A5, 0x0280,
      0x01A8, 0x01A8, 0x0283, 0x01AA, 0x01AB, 0x01AD, 0x01AD, 0x0288,
      0x01B0, 0x01B0, 0x028A, 0x028B, 0x01B4, 0x01B4, 0x01B6, 0x01B6,
      0x0292, 0x01B9, 0x01B9, 0x01BA, 0x01BB, 0x01BD, 0x01BD, 0x01BE,
      0x01BF, 0x01C0, 0x01C1, 0x01C2, 0x01C3, 0x01C6, 0x01C6, 0x01C6,
      0x01C9, 0x01C9, 0x01C9, 0x01CC] (code - 0x180), 0, 0)
  else if 0x1CB ≤ code ∧ code ≤ 0x1DC then (code + code % 2, 0, 0)
  else if 0x1DE ≤ code ∧ code ≤ 0x1EF then (code / 2 * 2 + 1, 0, 0)
  else if code = 0x1F0 then (0x6A, 0x30C, 0)
  else if 0x1F0 ≤ code ∧ code ≤ 0x24F then
    (foldTab [0x01F0, 0x01F3, 0x01F3, 0x01F3, 0x01F5, 0x01F5, 0x0195,
      0x01BF, 0x01F9, 0x01F9, 0x01FB, 0x01FB, 0x01FD, 0x01FD, 0x01FF,
      0x01FF, 0x0201, 0x0201, 0x0203, 0x0203, 0x0205, 0x0205, 0x0207,
      0x0207, 0x0209, 0x0209, 0x020B, 0x020B, 0x020D, 0x020D, 0x020F,
      0x020F, 0x0211, 0x0211, 0x0213, 0x0213, 0x0215, 0x0215, 0x0217,
      0x0217, 0x0219, 0x0219, 0x021B, 0x021B, 0x021D, 0x021D, 0x021F,
      0x021F, 0x019E, 0x0221, 0x0223, 0x0223, 0x0225, 0x0225, 0x0227,
      0x0227, 0x0229, 0x0229, 0x022B, 0x022B, 0x022D, 0x022D, 0x022F,
      0x022F, 0x0231, 0x0231, 0x0233, 0x0233, 0x0234, 0x0235, 0x0236,
      0x0237, 0x0238, 0x0239, 0x2C65, 0x023C, 0x023C, 0x019A, 0x2C66,
      0x023F, 0x0240, 0x0242, 0x0242, 0x0180, 0x0289, 0x028C, 0x0247,
      0x0247, 0x0249, 0x0249, 0x024B, 0x024B, 0x024D, 0x024D, 0x024F,
      0x024F] (code - 0x1F0), 0, 0)
  else if code = 0x345 then (0x3B9, 0, 0)
  else (code, 0, 0)

/-- Fold block for `code ≤ 0x3ff` (greek, cxx:1053-1106). -/
def foldBk04 (code : Nat) : Nat × Nat × Nat :=
  if 0x370 ≤ code ∧ code ≤ 0x38F then
    (foldTab [0x0371, 0x0371, 0x0373, 0x0373, 0x0374, 0x0375, 0x0377,
      0x0377, 0x0378, 0x0379, 0x037A, 0x037B, 0x037C, 0x037D, 0x037E,
      0x03F3, 0x0380, 0x0381, 0x0382, 0x0383, 0x0384, 0x0385, 0x03AC,
      0x0387, 0x03AD, 0x03AE, 0x03AF, 0x038B, 0x03CC, 0x038D, 0x03CD,
      0x03CE] (code - 0x370), 0, 0)
  else if (0x391 ≤ code ∧ code ≤ 0x3A1) ∨ (0x3A3 ≤ code ∧ code ≤ 0x3AB) then
    (code + 0x20, 0, 0)
  else if code = 0x390 then (0x3B9, 0x308, 0x301)
  else if code = 0x3B0 then (0x3C5, 0x308, 0x301)
  else if code = 0x3C2 then (code + 1, 0, 0)
  else if 0x3CF ≤ code ∧ code ≤ 0x3D6 then
    (foldTab [0x03D7, 0x03B2, 0x03B8, 0x03D2, 0x03D3, 0x03D4, 0x03C6,
      0x03C0] (code - 0x3CF), 0, 0)
  else if 0x3D8 ≤ code ∧ code ≤ 0x3EF then (code / 2 * 2 + 1, 0, 0)
  else if 0x3F0 ≤ code ∧ code ≤ 0x3FF then
    (foldTab [0x03BA, 0x03C1, 0x03F2, 0x03F3, 0x03B8, 0x03B5, 0x03F6,
      0x03F8, 0x03F8, 0x03F2, 0x03FB, 0x03FB, 0x03FC, 0x037B, 0x037C,
      0x037D] (code - 0x3F0), 0, 0)
  else (code, 0, 0)

/-- Fold block for `code ≤ 0x52f` (cyrillic, cxx:1107-1134). -/
def foldBk05 (code : Nat) : Nat × Nat × Nat :=
  if 0x400 ≤ code ∧ code ≤ 0x40F then (code + 0x50, 0, 0)
  else if 0x410 ≤ code ∧ code ≤ 0x42F then (code + 0x20, 0, 0)
  else if (0x460 ≤ code ∧ code ≤ 0x481) ∨ (0x48A ≤ code ∧ code ≤ 0x4BF) then
    (code / 2 * 2 + 1, 0, 0)
  else if code = 0x4C0 then (0x4CF, 0, 0)
  else if 0x4C1 ≤ code ∧ code ≤ 0x4CE then (code + code % 2, 0, 0)
  else if 0x4D0 ≤ code ∧ code ≤ 0x52F then (code / 2 * 2 + 1, 0, 0)
  else (code, 0, 0)

/-- Fold block for `code ≤ 0x1fff` (rare greek, cxx:1185-1274). -/
def foldBk09 (code : Nat) : Nat × Nat × Nat :=
  if (0x1F08 ≤ code ∧ code ≤ 0x1F0F) ∨ (0x1F18 ≤ code ∧ code ≤ 0x1F1D) ∨
     (0x1F28 ≤ code ∧ code ≤ 0x1F2F) ∨ (0x1F38 ≤ code ∧ code ≤ 0x1F3F) ∨
     (0x1F48 ≤ code ∧ code ≤ 0x1F4D) then
    (code - 0x08, 0, 0)
  else if 0x1F50 ≤ code ∧ code ≤ 0x1F56 ∧ code % 2 = 0 then
    (0x3C5, 0x313, foldTab [0, 0, 0x300, 0, 0x301, 0, 0x342] (code - 0x1F50))
  else if (0x1F59 ≤ code ∧ code ≤ 0x1F5F ∧ code % 2 = 1) ∨
          (0x1F68 ≤ code ∧ code ≤ 0x1F6F) then
    (code - 0x08, 0, 0)
  else if 0x1F80 ≤ code ∧ code ≤ 0x1FAF then
    (if code ≤ 0x1F87 then code - 0x80
     else if code ≤ 0x1F8F then code - 0x88
     else if code ≤ 0x1F97 then code - 0x70
     else if code ≤ 0x1F9F then code - 0x78
     else if code ≤ 0x1FA7 then code - 0x40
     else code - 0x48, 0x3B9, 0)
  else if 0x1FB2 ≤ code ∧ code ≤ 0x1FFC then
    let t :=
      foldTab [0x1F70, 0x03B1, 0x03AC, 0x1FB5, 0x03B1, 0x03B1, 0x1FB0,
        0x1FB1, 0x1F70, 0x1F71, 0x03B1, 0x1FBD, 0x03B9, 0x1FBF, 0x1FC0,
        0x1FC1, 0x1F74, 0x03B7, 0x03AE, 0x1FC5, 0x03B7, 0x03B7, 0x1F72,
        0x1F73, 0x1F74, 0x1F75, 0x03B7, 0x1FCD, 0x1FCE, 0x1FCF, 0x1FD0,
        0x1FD1, 0x03B9, 0x03B9, 0x1FD4, 0x1FD5, 0x03B9, 0x03B9, 0x1FD0,
        0x1FD1, 0x1F76, 0x1F77, 0x1FDC, 0x1FDD, 0x1FDE, 0x1FDF, 0x1FE0,
        0x1FE1, 0x03C5, 0x03C5, 0x03C1, 0x1FE5, 0x03C5, 0x03C5, 0x1FE0,
        0x1FE1, 0x1F7A, 0x1F7B, 0x1FE5, 0x1FED, 0x1FEE, 0x1FEF, 0x1FF0,
        0x1FF1, 0x1F7C, 0x03C9, 0x03CE, 0x1FF5, 0x03C9, 0x03C9, 0x1F78,
        0x1F79, 0x1F7C, 0x1F7D, 0x03C9] (code - 0x1FB2)
    if code ≤ 0x1FB4 ∨ code = 0x1FBC ∨ (0x1FC2 ≤ code ∧ code ≤ 0x1FC4) ∨
       code = 0x1FCC ∨ (0x1FF2 ≤ code ∧ code ≤ 0x1FF4) ∨ code = 0x1FFC then
      (t, 0x3B9, 0)
    else if code = 0x1FB6 ∨ code = 0x1FC6 ∨ code = 0x1FD6 ∨
            code = 0x1FE6 ∨ code = 0x1FF6 then
      (t, 0x342, 0)
    else if code = 0x1FB6 ∨ code = 0x1FB7 ∨ code = 0x1FC7 ∨
            code = 0x1FF7 then
      (t, 0x342, 0x3B9)
    else if 0x1FD2 ≤ code ∧ code ≤ 0x1FD3 then
      (t, 0x308, code - (0x1FD2 - 0x300))
    else if code = 0x1FD7 ∨ code = 0x1FE7 then (t, 0x308, 0x342)
    else if 0x1FE2 ≤ code ∧ code ≤ 0x1FE3 then
      (t, 0x308, code - (0x1FE2 - 0x300))
    else if code = 0x1FE4 then (t, 0x313, 0)
    else (t, 0, 0)
  else (code, 0, 0)

/-- Fold block for `code ≤ 0x2cff` (glagolitic, coptic, cxx:1306-1333). -/
def foldBk11 (code : Nat) : Nat × Nat × Nat :=
  if 0x2C00 ≤ code ∧ code ≤ 0x2C2E then (code + 0x30, 0, 0)
  else if 0x2C60 ≤ code ∧ code ≤ 0x2C7F then
    (foldTab [0x2C61, 0x2C61, 0x026B, 0x1D7D, 0x027D, 0x2C65, 0x2C66,
      0x2C68, 0x2C68, 0x2C6A, 0x2C6A, 0x2C6C, 0x2C6C, 0x0251, 0x0271,
      0x0250, 0x0252, 0x2C71, 0x2C73, 0x2C73, 0x2C74, 0x2C76, 0x2C76,
      0x2C77, 0x2C78, 0x2C79, 0x2C7A, 0x2C7B, 0x2C7C, 0x2C7D, 0x023F,
      0x0240] (code - 0x2C60), 0, 0)
  else if 0x2C80 ≤ code ∧ code ≤ 0x2CF3 then
    if code ≤ 0x2CE3 then (code / 2 * 2 + 1, 0, 0)
    else if code = 0x2CEB ∨ code = 0x2CED ∨ code = 0x2CF2 then
      (code + 1, 0, 0)
    else (code, 0, 0)
  else (code, 0, 0)

/-- Fold block for `code ≤ 0xabff` (rare cyrillic/latin, cherokee,
cxx:1338-1384). -/
def foldBk12 (code : Nat) : Nat × Nat × Nat :=
  if (0xA640 ≤ code ∧ code ≤ 0xA66D) ∨ (0xA680 ≤ code ∧ code ≤ 0xA69B) then
    (code / 2 * 2 + 1, 0, 0)
  else if 0xA722 ≤ code ∧ code ≤ 0xA76F ∧ code ≠ 0xA730 then
    (code / 2 * 2 + 1, 0, 0)
  else if 0xA779 ≤ code ∧ code ≤ 0xA77C then (code + code % 2, 0, 0)
  else if code = 0xA77D then (0x1D79, 0, 0)
  else if 0xA77E ≤ code ∧ code ≤ 0xA787 then (code / 2 * 2 + 1, 0, 0)
  else if code = 0xA78B then (code + 1, 0, 0)
  else if code = 0xA78D then (0x265, 0, 0)
  else if 0xA790 ≤ code ∧ code ≤ 0xA7A9 ∧ code ≠ 0xA794 then
    (code / 2 * 2 + 1, 0, 0)
  else if 0xA7AA ≤ code ∧ code ≤ 0xA7B6 then
    (foldTab [0x0266, 0x025C, 0x0261, 0x026C, 0xA7AE, 0xA7AF, 0x029E,
      0x0287, 0x029D, 0xAB53, 0xA7B5, 0xA7B5, 0xA7B7] (code - 0xA7AA),
     0, 0)
  else if 0xAB70 ≤ code ∧ code ≤ 0xABBF then (code - 0x97D0, 0, 0)
  else (code, 0, 0)

/-- Fold block for `code ≤ 0xfbff` (ligatures, cxx:1389-1433). -/
def foldBk13 (code : Nat) : Nat × Nat × Nat :=
  if 0xFB00 ≤ code ∧ code ≤ 0xFB06 then
    if code ≤ 0xFB04 then
      if code = 0xFB01 then (0x66, 0x69, 0)
      else if code = 0xFB02 then (0x66, 0x6C, 0)
      else if code = 0xFB03 then (0x66, 0x66, 0x69)
      else if code = 0xFB04 then (0x66, 0x66, 0x6C)
      else (0x66, 0x66, 0)
    else (0x73, 0x74, 0)
  else if 0xFB13 ≤ code ∧ code ≤ 0xFB17 then
    (foldTab [0x0574, 0x0574, 0x0574, 0x057E, 0x0574] (code - 0xFB13),
     foldTab [0x0576, 0x0565, 0x056B, 0x0576, 0x056D] (code - 0xFB13),
     0)
  else (code, 0, 0)

/-- Folding cascade of `CaseFoldUnicode` (cxx:935-1455): maps a code
point to one to three code points per the Unicode 8.0 CaseFolding
data.  A second/third code of 0 means "absent". -/
def caseFoldTriple (code : Nat) : Nat × Nat × Nat :=
  if code ≤ 0x7f then
    (if 0x41 ≤ code ∧ code ≤ 0x5A then code + 0x20 else code, 0, 0)
  else if code ≤ 0xff then foldBk01 code
  else if code ≤ 0x17f then foldBk02 code
  else if code ≤ 0x36f then foldBk03 code
  else if code ≤ 0x3ff then foldBk04 code
  else if code ≤ 0x52f then foldBk05 code
  else if code ≤ 0x1000 then
    if 0x531 ≤ code ∧ code ≤ 0x556 then (code + 0x30, 0, 0)
    else if code = 0x587 then (0x565, 0x582, 0)
    else (code, 0, 0)
  else if code ≤ 0x13ff then
    if (0x10A0 ≤ code ∧ code ≤ 0x10C5) ∨ code = 0x10C7 ∨ code = 0x10CD then
      (code + 0x1C60, 0, 0)
    else if 0x13F8 ≤ code ∧ code ≤ 0x13FD then (code - 0x08, 0, 0)
    else (code, 0, 0)
  else if code ≤ 0x1eff then
    if 0x1E00 ≤ code ∧ code ≤ 0x1E95 then (code / 2 * 2 + 1, 0, 0)
    else if 0x1E96 ≤ code ∧ code ≤ 0x1E9B then
      (foldTab [0x68, 0x74, 0x77, 0x79, 0x61, 0x1E61] (code - 0x1E96),
       foldTab [0x0331, 0x0308, 0x030A, 0x030A, 0x02BE, 0] (code - 0x1E96),
       0)
    else if code = 0x1E9E then (0x73, 0x73, 0)
    else if 0x1EA0 ≤ code ∧ code ≤ 0x1EFE then (code / 2 * 2 + 1, 0, 0)
    else (code, 0, 0)
  else if code ≤ 0x1fff then foldBk09 code
  else if code ≤ 0x24ff then
    if code = 0x2126 then (0x3C9, 0, 0)
    else if code = 0x212A then (0x6B, 0, 0)
    else if code = 0x212B then (0xE5, 0, 0)
    else if code = 0x2132 then (0x214E, 0, 0)
    else if 0x2160 ≤ code ∧ code ≤ 0x216F then (code + 0x10, 0, 0)
    else if code = 0x2183 then (code + 1, 0, 0)
    else if 0x24B6 ≤ code ∧ code ≤ 0x24CF then (code + 0x1a, 0, 0)
    else (code, 0, 0)
  else if code ≤ 0x2cff then foldBk11 code
  else if code ≤ 0x9fff then (code, 0, 0)
  else if code ≤ 0xabff then foldBk12 code
  else if code ≤ 0xfaff then (code, 0, 0)
  else if code ≤ 0xfbff then foldBk13 code
  else if code ≤ 0xffff then
    if 0xFF21 ≤ code ∧ code ≤ 0xFF3A then (code + 0x20, 0, 0)
    else (code, 0, 0)
  else
    if 0x10400 ≤ code ∧ code ≤ 0x10427 then (code + 0x28, 0, 0)
    else if 0x10C80 ≤ code ∧ code ≤ 0x10CB2 then (code + 0x40, 0, 0)
    else if 0x118A0 ≤ code ∧ code ≤ 0x118BF then (code + 0x20, 0, 0)
    else (code, 0, 0)

/-- `CaseFoldUnicode` (cxx:928-1468): append the UTF-8 encodings of the
folded code points (`code`, then `code2` if nonzero, then `code3` if
both are nonzero). -/
def CaseFoldUnicode (code : Nat) : List Nat :=
  let t := caseFoldTriple code
  UnicodeToUTF8 t.1 ++
    (if t.2.1 ≠ 0 then
      UnicodeToUTF8 t.2.1 ++ (if t.2.2 ≠ 0 then UnicodeToUTF8 t.2.2 else [])
     else [])

/-!
Pointwise facts about the folding map, used for the idempotence claim:
every code point emitted by the fold is a scalar value that the fold
maps to itself.  The map is checked by evaluation on the windows of the
code space that the cascade can act on, and proved inert (identity)
outside them.
-/

/-- The folded code points emitted for input `c`, in order. -/
def foldCodes (c : Nat) : List Nat :=
  let t := caseFoldTriple c
  [t.1] ++
    (if t.2.1 ≠ 0 then [t.2.1] ++ (if t.2.2 ≠ 0 then [t.2.2] else []) else [])

/-- Boolean check that all outputs of the fold at `c` are scalar
values, fixed by a second fold, and not a sentinel (unless `c` itself
is that sentinel). -/
def foldPointOk (c : Nat) : Bool :=
  (foldCodes c).all fun o =>
    decide (o ≤ 0x10FFFF) && !(decide (0xD800 ≤ o) && decide (o ≤ 0xDFFF)) &&
    decide (caseFoldTriple o = (o, 0, 0)) &&
    (decide (o ≠ 0xFFFE) || decide (c = 0xFFFE)) &&
    (decide (o ≠ 0xFFFF) || decide (c = 0xFFFF))

/-- Balanced conjunction of `p` over `[lo, lo+n)`; the fuel bounds the
recursion so that evaluation depth stays logarithmic in `n`. -/
def ballSplit (p : Nat → Bool) : Nat → Nat → Nat → Bool
  | 0, lo, n => decide (n = 0) || (decide (n = 1) && p lo)
  | fuel + 1, lo, n =>
    if n ≤ 1 then decide (n = 0) || (decide (n = 1) && p lo)
    else
      ballSplit p fuel lo (n / 2) && ballSplit p fuel (lo + n / 2) (n - n / 2)

/-- Outside the enumerated windows the fold cascade is the identity. -/
def foldInert (c : Nat) : Prop :=
  ¬(0x41 ≤ c ∧ c < 0x41 + 26) ∧ ¬(0xB5 ≤ c ∧ c < 0xB5 + 43) ∧
  ¬(0x100 ≤ c ∧ c < 0x100 + 336) ∧ c ≠ 0x345 ∧
  ¬(0x370 ≤ c ∧ c < 0x370 + 487) ∧ c ≠ 0x587 ∧
  ¬(0x10A0 ≤ c ∧ c < 0x10A0 + 46) ∧ ¬(0x13F8 ≤ c ∧ c < 0x13F8 + 6) ∧
  ¬(0x1E00 ≤ c ∧ c < 0x1E00 + 509) ∧ ¬(0x2126 ≤ c ∧ c < 0x2126 + 94) ∧
  ¬(0x24B6 ≤ c ∧ c < 0x24B6 + 26) ∧ ¬(0x2C00 ≤ c ∧ c < 0x2C00 + 244) ∧
  ¬(0xA640 ≤ c ∧ c < 0xA640 + 375) ∧ ¬(0xAB70 ≤ c ∧ c < 0xAB70 + 80) ∧
  ¬(0xFB00 ≤ c ∧ c < 0xFB00 + 24) ∧ ¬(0xFF21 ≤ c ∧ c < 0xFF21 + 26) ∧
  ¬(0x10400 ≤ c ∧ c < 0x10400 + 40) ∧ ¬(0x10C80 ≤ c ∧ c < 0x10C80 + 51) ∧
  ¬(0x118A0 ≤ c ∧ c < 0x118A0 + 32)

/-- The pointwise property needed for idempotence, in propositional
form. -/
def FoldPointGood (c : Nat) : Prop :=
  ∀ o ∈ foldCodes c,
    (o ≤ 0x10FFFF ∧ ¬(0xD800 ≤ o ∧ o ≤ 0xDFFF)) ∧
    caseFoldTriple o = (o, 0, 0) ∧
    (o = 0xFFFE → c = 0xFFFE) ∧ (o = 0xFFFF → c = 0xFFFF)

/-!
The scanning loop of `CaseFoldedUTF8` (cxx:3849-3861): decode one
character, replace the malformed sentinel 0xFFFF by U+FFFD, skip the
truncation sentinel 0xFFFE, and fold.  The loop is written with a fuel
parameter; every step consumes at least one byte, so fuel equal to the
input length always suffices.
-/

/-- Per-character emission of the `CaseFoldedUTF8` loop
(cxx:3852-3860). -/
def caseFoldStep (code : Nat) : List Nat :=
  let code := if code = 0xFFFF then 0xFFFD else code
  if code ≠ 0xFFFE then CaseFoldUnicode code else []

/-- Scanning loop of `CaseFoldedUTF8` (cxx:3849-3861). -/
def caseFoldLoop : Nat → List Nat → List Nat
  | 0, _ => []
  | fuel + 1, bs =>
    match bs with
    | [] => []
    | _ :: _ =>
      caseFoldStep (UTF8ToUnicode bs).1 ++
        caseFoldLoop fuel (bs.drop (UTF8ToUnicode bs).2)

/-- The folded code points actually emitted by one loop step. -/
def caseFoldStepCodes (c : Nat) : List Nat :=
  if c = 0xFFFE then [] else foldCodes (if c = 0xFFFF then 0xFFFD else c)

/-! ### Shift-JIS decoder (cxx:1800-1888) and bad-character handling
(cxx:903-924).

Conversion tables are not present under `src/`, so table lookups are
parameterized: a decoder takes `table : Nat → Nat` standing for
`CompressedTable`'s `operator[]`.  Modes (cxx:900): `UTF8_IGNORE = 0`,
`UTF8_REPLACE = 1`, `UTF8_ESCAPE = 2`. -/

/-- `BadCharsToUTF8` (cxx:903-924): the handler receives the span of
bad bytes `[cp, ep)` (here the list `bad`) and the mode. -/
def BadCharsToUTF8 (bad : List Nat) (mode : Nat) : List Nat :=
  if mode = 1 then UnicodeToUTF8 0xFFFD
  else if mode = 2 then
    (bad.map (fun b => UnicodeToUTF8 (0xDC00 + b % 256))).flatten
  else []

/-- One iteration of the `SJISToUTF8` while loop (cxx:1810-1884):
given the first byte and the remaining bytes, return the emitted
UTF-8 bytes, the number of input bytes consumed (1 or 2), and
whether the unit converted without error. -/
def sjisUnit (table : Nat → Nat) (mode : Nat) (b : Nat) (rest : List Nat) :
    List Nat × Nat × Bool :=
  let c := b % 256
  if c < 0x80 then
    ([c], 1, true)                      -- ascii (cxx:1815-1817)
  else if 0xA1 ≤ c ∧ c ≤ 0xDF then
    (UnicodeToUTF8 (c + 0xFEC0), 1, true)  -- half-width katakana (cxx:1824-1826)
  else
    match rest with
    | [] => (BadCharsToUTF8 [b] mode, 1, false)
    | y0 :: _ =>
      let y := y0 % 256
      if c ≠ 0x80 ∧ c ≠ 0xA0 ∧ c ≤ 0xFC ∧
          (0x40 ≤ y ∧ y ≤ 0xFC ∧ y ≠ 0x7F) then
        -- two-byte Shift-JIS sequence (cxx:1827-1867)
        let a0 : Nat := if y < 0x9F then 0 else 1
        let b0 : Nat := if y < 0x9F then
            y - (if y < 0x7F then 0x40 else 0x41)
          else y - 0x9F
        let a : Nat := a0 + (if c ≤ 0x9F then (c - 0x81) * 2 else (c - 0xC1) * 2)
        let code0 := table (a * 94 + b0)
        -- code page 932 substitutions for lead byte 0x81 (cxx:1852-1866)
        let code := if c = 0x81 then
            (if y = 0x5C then 0x2015 else if y = 0x5F then 0xFF3C
             else if y = 0x60 then 0xFF5E else if y = 0x61 then 0x2225
             else if y = 0x7C then 0xFF0D else if y = 0x91 then 0xFFE0
             else if y = 0x92 then 0xFFE1 else if y = 0xCA then 0xFFE2
             else code0)
          else code0
        if code = 0xFFFD then
          (BadCharsToUTF8 [b, y0] mode, 2, false)   -- cxx:1870-1873
        else
          (UnicodeToUTF8 code, 2, true)              -- cxx:1876
      else
        (BadCharsToUTF8 [b] mode, 1, false)

/-- The `SJISToUTF8` while loop (cxx:1807-1884), fueled: returns the
output bytes and the position of the first conversion error, if any
(`errpos = (errpos ? errpos : lastpos)` keeps the earliest). -/
def sjisLoop (table : Nat → Nat) (mode : Nat) :
    Nat → Nat → List Nat → List Nat × Option Nat
  | 0, _, _ => ([], none)
  | _ + 1, _, [] => ([], none)
  | fuel + 1, pos, b :: rest =>
    let u := sjisUnit table mode b rest
    let r := sjisLoop table mode fuel (pos + u.2.1) (rest.drop (u.2.1 - 1))
    (u.1 ++ r.1, if u.2.2 then r.2 else some pos)

/-- `vtkDICOMCharacterSet::SJISToUTF8` (cxx:1800-1888): returns the
decoded string and the value `errpos ? errpos - text : cp - text`. -/
def SJISToUTF8 (table : Nat → Nat) (bs : List Nat) (mode : Nat) :
    List Nat × Nat :=
  let r := sjisLoop table mode bs.length 0 bs
  (r.1, r.2.getD bs.length)

/-- Unit scanner: the start position, emitted bytes and success flag
of every conversion unit of the input, in order. -/
def sjisUnits (table : Nat → Nat) (mode : Nat) :
    Nat → Nat → List Nat → List (Nat × List Nat × Bool)
  | 0, _, _ => []
  | _ + 1, _, [] => []
  | fuel + 1, pos, b :: rest =>
    let u := sjisUnit table mode b rest
    (pos, u.1, u.2.2) ::
      sjisUnits table mode fuel (pos + u.2.1) (rest.drop (u.2.1 - 1))

/-! ### The UTF-8 to UTF-8 codec (cxx:1471-1510) -/

/-- One iteration of the `UTF8ToUTF8` while loop (cxx:1479-1508): the
emitted bytes, the bytes consumed, and whether the unit decoded without
setting `errpos`.  `code ^ 0xFF40` is evaluated only when
`code ∈ {0xFFFE, 0xFFFF}`, where the XOR equals subtraction; the
surrogate test `(code & 0xF800) == 0xD800` is `code / 0x800 % 0x20 =
0x1B` (`code < 2^32` so bits above 15 are kept by `% 0x20`
exactly as the mask keeps bits 11-15). -/
def utf8Utf8Unit (mode : Nat) (bs : List Nat) : List Nat × Nat × Bool :=
  if 0xFFFE ≤ (UTF8ToUnicode bs).1 ∧ (UTF8ToUnicode bs).1 ≤ 0xFFFF ∧
      ¬((UTF8ToUnicode bs).2 = 3 ∧ bs.getD 0 0 % 256 = 0xEF ∧
        bs.getD 1 0 % 256 = 0xBF ∧
        bs.getD 2 0 % 256 = (UTF8ToUnicode bs).1 - 0xFF40) then
    (if (UTF8ToUnicode bs).1 = 0xFFFF then
        BadCharsToUTF8 (bs.take (UTF8ToUnicode bs).2) mode
      else [],
      (UTF8ToUnicode bs).2, false)
  else
    (UnicodeToUTF8 (UTF8ToUnicode bs).1, (UTF8ToUnicode bs).2,
      if (UTF8ToUnicode bs).2 = 6 ∨ (UTF8ToUnicode bs).1 / 2048 % 32 = 27
      then false else true)

/-- The `UTF8ToUTF8` while loop (cxx:1479-1508), fueled. -/
def utf8Utf8Loop (mode : Nat) :
    Nat → Nat → List Nat → List Nat × Option Nat
  | 0, _, _ => ([], none)
  | _ + 1, _, [] => ([], none)
  | fuel + 1, pos, b :: rest =>
    let u := utf8Utf8Unit mode (b :: rest)
    let r := utf8Utf8Loop mode fuel (pos + u.2.1) ((b :: rest).drop u.2.1)
    (u.1 ++ r.1, if u.2.2 then r.2 else some pos)

/-- `UTF8ToUTF8` (cxx:1471-1510): re-encode a UTF-8 string, returning
the output and the `errpos ? errpos - text : cp - text` offset.
`vtkDICOMCharacterSet::ToUTF8` with key `ISO_IR_192` dispatches here
with `mode = UTF8_REPLACE` (cxx:3739, 3696-3706). -/
def UTF8ToUTF8 (bs : List Nat) (mode : Nat) : List Nat × Nat :=
  let r := utf8Utf8Loop mode bs.length 0 bs
  (r.1, r.2.getD bs.length)

/-- Fueled scan: every unit of the stream decodes to a code point that
is not a UTF-16 surrogate. -/
def utf8ScalarsOk : Nat → List Nat → Bool
  | 0, _ => true
  | _ + 1, [] => true
  | fuel + 1, b :: rest =>
    let r := UTF8ToUnicode (b :: rest)
    if 0xD800 ≤ r.1 ∧ r.1 ≤ 0xDFFF then false
    else utf8ScalarsOk fuel ((b :: rest).drop r.2)

/-- `vtkDICOMCharacterSet::CaseFoldedUTF8` (cxx:3832-3863) for the
UTF-8 key `ISO_IR_192`: the input is scanned directly (no `ToUTF8`
pre-conversion) and each decoded code point is case folded, with
0xFFFF replaced by 0xFFFD and 0xFFFE skipped. -/
def CaseFoldedUTF8 (bs : List Nat) : List Nat :=
  caseFoldLoop bs.length bs

/-! ### GB18030 decoder (cxx:2353-2455)

The conversion table `Table[GB18030]` is not under `src/`, so the
lookup is a parameter `table : Nat → Nat`. -/

/-- Code-point computation of one non-ASCII GB18030 unit
(cxx:2377-2440): `a` is the lead byte, `y` the second byte, `rest2`
the bytes after them.  Returns the code point (0xFFFD when
unconvertible) and the number of input bytes consumed (1, 2 or 4). -/
def gb18030Code (table : Nat → Nat) (a y : Nat) (rest2 : List Nat) :
    Nat × Nat :=
  if 0x80 < a ∧ a < 0xFF then
    if 0x30 ≤ y ∧ y < 0xFF ∧ y ≠ 0x7F then
      if 0x40 ≤ y then
        -- two-byte character (cxx:2386-2406)
        (if a < 0xA1 then
            table ((a - 0x81) * 190 +
              ((if 0x7F < y then y - 1 else y) - 0x40) + 8836)
          else if y < 0xA1 then
            table ((a - 0xA1) * 96 +
              ((if 0x7F < y then y - 1 else y) - 0x40) + (8836 + 6080))
          else
            table ((a - 0xA1) * 94 + (y - 0xA1)), 2)
      else
        -- start of a four-byte code (cxx:2407-2438)
        match rest2 with
        | x0 :: y1 :: _ =>
          if 0x80 < x0 % 256 ∧ x0 % 256 < 0xFF ∧
              0x30 ≤ y1 % 256 ∧ y1 % 256 ≤ 0x39 then
            if (a - 0x81) * 10 + (y - 0x30) < 32 then
              (table (((a - 0x81) * 10 + (y - 0x30)) * 1260 +
                ((x0 % 256 - 0x81) * 10 + (y1 % 256 - 0x30)) + 23940), 4)
            else if 150 ≤ (a - 0x81) * 10 + (y - 0x30) then
              if ((a - 0x81) * 10 + (y - 0x30) - 150) * 1260 +
                  ((x0 % 256 - 0x81) * 10 + (y1 % 256 - 0x30)) ≤ 0xFFFFF then
                (((a - 0x81) * 10 + (y - 0x30) - 150) * 1260 +
                  ((x0 % 256 - 0x81) * 10 + (y1 % 256 - 0x30)) + 0x10000, 4)
              else (0xFFFD, 4)
            else (0xFFFD, 4)
          else (0xFFFD, 2)
        | _ => (0xFFFD, 2)
    else (0xFFFD, 1)
  else (0xFFFD, 1)

/-- The `GB18030ToUTF8` while loop (cxx:2362-2452), fueled: output
bytes and the position of the first conversion error.  A non-ASCII
lead as the very last input byte sets the error and breaks the loop
(cxx:2372-2376).  The 4-byte code 84 31 A4 37 is exempted from the
0xFFFD error check (cxx:2440-2444). -/
def gb18030Loop (table : Nat → Nat) (mode : Nat) :
    Nat → Nat → List Nat → List Nat × Option Nat
  | 0, _, _ => ([], none)
  | _ + 1, _, [] => ([], none)
  | fuel + 1, pos, b :: rest =>
    if b % 256 < 0x80 then
      let r := gb18030Loop table mode fuel (pos + 1) rest
      (b % 256 :: r.1, r.2)
    else
      match rest with
      | [] => ([], some pos)
      | y0 :: rest2 =>
        let cc := gb18030Code table (b % 256) (y0 % 256) rest2
        let r := gb18030Loop table mode fuel (pos + cc.2)
          ((b :: y0 :: rest2).drop cc.2)
        if cc.1 = 0xFFFD ∧
            ¬(4 ≤ cc.2 ∧ b % 256 = 0x84 ∧ y0 % 256 = 0x31 ∧
              rest2.getD 0 0 % 256 = 0xA4 ∧ rest2.getD 1 0 % 256 = 0x37) then
          (BadCharsToUTF8 ((b :: y0 :: rest2).take cc.2) mode ++ r.1,
            some pos)
        else
          (UnicodeToUTF8 cc.1 ++ r.1, r.2)

/-- `vtkDICOMCharacterSet::GB18030ToUTF8` (cxx:2353-2455): decoded
string and the `errpos ? errpos - text : cp - text` offset. -/
def GB18030ToUTF8 (table : Nat → Nat) (bs : List Nat) (mode : Nat) :
    List Nat × Nat :=
  let r := gb18030Loop table mode bs.length 0 bs
  (r.1, r.2.getD bs.length)

/-! ### ISO-2022 state machinery (cxx:3347-3398, 3484-3499, 4092-4228)

Modelled from the spec: the enum header `vtkDICOMCharacterSet.h` is not
under `src/`, so the constants it defines are modelled here from the
spec's description: `ISO_IR_6 = 0`, `ISO_IR_13 = 1`,
`ISO_2022_JP_BASE = 7`, `ISO_IR_100 = 8`, `ISO_2022 = 32` (the flag
bit), `ISO_2022_BASE = 31` (mask), `ISO_2022_MAX = 63`,
`ISO_2022_IR_6 = 32`, `ISO_2022_IR_149 = 50` (so
`ISO_2022_IR_149 & ISO_2022_BASE = 18`), `Unknown = 255`; the state
flags `MULTIBYTE_G0..G3` are the bit masks 0x100, 0x200, 0x400, 0x800
and `CHARSET96_G1..G3` are 0x2000, 0x4000, 0x8000.  Bit operations on
the 32-bit state word are rendered arithmetically on `Nat`, with the
mask passed as the power of two: `bitGet s m = s / m % 2`,
`s &= ~m` is `bitClear`, `s |= m` is `bitSet`. -/

def bitGet (s m : Nat) : Nat := s / m % 2

def bitClear (s m : Nat) : Nat := s - s / m % 2 * m

def bitSet (s m : Nat) : Nat := s - s / m % 2 * m + m

/-- The ISO-2022 decoder registers: the state word and the G0-G3
charset designations. -/
structure Iso2022St where
  state : Nat
  g0 : Nat
  g1 : Nat
  g2 : Nat
  g3 : Nat
  deriving DecidableEq, Repr

/-- `vtkDICOMCharacterSet::InitISO2022` (cxx:3347-3398): the initial
designations and state flags derived from the declared key. -/
def InitISO2022 (key : Nat) : Iso2022St :=
  if key ≤ 63 then
    -- charsetG[1] = key & ISO_2022_BASE
    let g1 := key % 32
    let state := if 18 ≤ g1 then 0x200       -- MULTIBYTE_G1
      else if 8 ≤ g1 then 0x2000            -- CHARSET96_G1
      else 0
    if g1 ≤ 7 then
      -- Japanese: charsetG[1] &= ISO_IR_13, G0 gets ISO IR 14
      { state := state, g0 := if g1 % 2 = 1 then 1 else 32,
        g1 := g1 % 2, g2 := 255, g3 := 255 }
    else
      { state := state, g0 := 32, g1 := g1, g2 := 255, g3 := 255 }
  else
    { state := key, g0 := 32, g1 := 255, g2 := 255, g3 := 255 }

/-- The control-character run of `ISO2022ToUTF8` (cxx:3484-3499):
bytes in 0x0A..0x0F are consumed with `prevchar` starting at NUL;
SI/SO (0x0E/0x0F) record an error, and a CR immediately followed by
LF re-initialises the ISO-2022 registers from the key.  Returns the
final registers and the position of the first SI/SO error. -/
def iso2022Controls (key : Nat) :
    Iso2022St → Nat → Nat → List Nat → Iso2022St × Option Nat
  | st, _, _, [] => (st, none)
  | st, prev, pos, c :: rest =>
    if c % 256 = 0x0E ∨ c % 256 = 0x0F then
      let r := iso2022Controls key st (c % 256) (pos + 1) rest
      (r.1, some pos)
    else if prev = 0x0D ∧ c % 256 = 0x0A then
      iso2022Controls key (InitISO2022 key) (c % 256) (pos + 1) rest
    else
      iso2022Controls key st (c % 256) (pos + 1) rest

/-- Escape classification results (modelled from the spec: the
`EscapeType` enum of the header, which is not under `src/`). -/
inductive EscapeType where
  | CODE_ACS | CODE_CZD | CODE_C1D | CODE_GZD | CODE_G1D | CODE_G2D
  | CODE_G3D | CODE_DOCS | CODE_IRR | CODE_SS2 | CODE_SS3 | CODE_LS2
  | CODE_LS3 | CODE_LS1R | CODE_LS2R | CODE_LS3R | CODE_OTHER
  | CODE_ERROR
  deriving DecidableEq, Repr

/-- Fallback rows of the `EscapeCode` switch for `l > 3`, or `l = 3`
with an unrecognised first byte (cxx:4201-4226). -/
def escFallback (c0 state : Nat) : EscapeType × Nat :=
  if (0x20 ≤ c0 % 256 ∧ c0 % 256 ≤ 0x22) ∨
      (0x24 ≤ c0 % 256 ∧ c0 % 256 ≤ 0x2F) then
    (.CODE_ERROR, state)
  else (.CODE_OTHER, state)

/-- `vtkDICOMCharacterSet::EscapeCode` (cxx:4092-4228): classify an
escape sequence (the bytes after ESC) and update the state word. -/
def EscapeCode : List Nat → Nat → EscapeType × Nat
  | [], state => (.CODE_ERROR, state)
  | [c0], state =>
    -- single final byte (cxx:4095-4116)
    (if c0 % 256 = 0x4E then .CODE_SS2
      else if c0 % 256 = 0x4F then .CODE_SS3
      else if c0 % 256 = 0x6E then .CODE_LS2
      else if c0 % 256 = 0x6F then .CODE_LS3
      else if c0 % 256 = 0x7E then .CODE_LS1R
      else if c0 % 256 = 0x7D then .CODE_LS2R
      else if c0 % 256 = 0x7C then .CODE_LS3R
      else .CODE_OTHER, state)
  | [c0, _], state =>
    -- one intermediate byte and a final byte (cxx:4117-4165)
    if c0 % 256 = 0x20 then (.CODE_ACS, state)
    else if c0 % 256 = 0x21 then (.CODE_CZD, state)
    else if c0 % 256 = 0x22 then (.CODE_C1D, state)
    else if c0 % 256 = 0x25 then (.CODE_DOCS, state)
    else if c0 % 256 = 0x26 then (.CODE_IRR, state)
    else if c0 % 256 = 0x27 then (.CODE_ERROR, state)
    else if c0 % 256 = 0x24 then (.CODE_GZD, bitSet state 0x100)
    else if c0 % 256 = 0x28 then (.CODE_GZD, bitClear state 0x100)
    else if c0 % 256 = 0x29 then
      (.CODE_G1D, bitClear (bitClear state 0x200) 0x2000)
    else if c0 % 256 = 0x2A then
      (.CODE_G2D, bitClear (bitClear state 0x400) 0x4000)
    else if c0 % 256 = 0x2B then
      -- cxx:4145-4147: clears the G2 bits even though this designates G3
      (.CODE_G3D, bitClear (bitClear state 0x400) 0x4000)
    else if c0 % 256 = 0x2C then (.CODE_ERROR, state)
    else if c0 % 256 = 0x2D then
      (.CODE_G1D, bitSet (bitClear state 0x200) 0x2000)
    else if c0 % 256 = 0x2E then
      (.CODE_G2D, bitSet (bitClear state 0x400) 0x4000)
    else if c0 % 256 = 0x2F then
      (.CODE_G3D, bitSet (bitClear state 0x800) 0x8000)
    else (.CODE_OTHER, state)
  | [c0, c1, _], state =>
    -- multi-byte designations "ESC $ ..." (cxx:4166-4200)
    if c0 % 256 = 0x24 then
      if c1 % 256 = 0x28 then (.CODE_GZD, bitSet state 0x100)
      else if c1 % 256 = 0x29 then
        (.CODE_G1D, bitClear (bitSet state 0x200) 0x2000)
      else if c1 % 256 = 0x2A then
        -- cxx:4180-4182: clears CHARSET96_G1, not CHARSET96_G2
        (.CODE_G2D, bitClear (bitSet state 0x400) 0x2000)
      else if c1 % 256 = 0x2B then
        -- cxx:4183-4185: clears CHARSET96_G1, not CHARSET96_G3
        (.CODE_G3D, bitClear (bitSet state 0x800) 0x2000)
      else if c1 % 256 = 0x2D then
        (.CODE_G1D, bitSet (bitSet state 0x200) 0x2000)
      else if c1 % 256 = 0x2E then
        (.CODE_G2D, bitSet (bitSet state 0x400) 0x4000)
      else if c1 % 256 = 0x2F then
        (.CODE_G3D, bitSet (bitSet state 0x800) 0x8000)
      else (.CODE_ERROR, state)
    else if c0 % 256 = 0x25 ∧ c1 % 256 = 0x2F then (.CODE_DOCS, state)
    else escFallback c0 state
  | c0 :: _ :: _ :: _ :: _, state => escFallback c0 state

/-! ### NextBackslash, GB18030/GBK branch (cxx:3867-3894) -/

/-- The `Key == GB18030 || Key == GBK` branch of
`vtkDICOMCharacterSet::NextBackslash` (cxx:3872-3894), fueled: scan
for a backslash, skipping the trail byte of any double-byte character
(lead 0x81..0xFF followed by a byte at least 0x21); stop at NUL, at a
backslash that starts a unit, or at the end.  Returns the offset. -/
def nextBackslashGB : Nat → Nat → List Nat → Nat
  | 0, pos, _ => pos
  | _ + 1, pos, [] => pos
  | fuel + 1, pos, c :: rest =>
    if c % 256 = 0 then pos
    else if 0x81 ≤ c % 256 then
      match rest with
      | [] => pos + 1
      | d :: rest2 =>
        if 0x21 ≤ d % 256 then nextBackslashGB fuel (pos + 2) rest2
        else nextBackslashGB fuel (pos + 1) (d :: rest2)
    else if c % 256 ≠ 0x5C then nextBackslashGB fuel (pos + 1) rest
    else pos

/-- The character boundaries of the GB18030/GBK double-byte scan: the
offsets at which a character unit may start (plus the end offset). -/
def gbBoundaries : Nat → Nat → List Nat → List Nat
  | 0, pos, _ => [pos]
  | _ + 1, pos, [] => [pos]
  | fuel + 1, pos, c :: rest =>
    pos ::
      (if 0x81 ≤ c % 256 then
        match rest with
        | [] => [pos + 1]
        | d :: rest2 =>
          if 0x21 ≤ d % 256 then gbBoundaries fuel (pos + 2) rest2
          else gbBoundaries fuel (pos + 1) (d :: rest2)
      else gbBoundaries fuel (pos + 1) rest)

/-! ### EUC-KR codecs (cxx:2755-2970)

The KS X 1001 tables `Reverse[X_EUCKR]` / `Table[X_EUCKR]` are not
under `src/`, so lookups are parameters; the `binary_search` over the
table's hangul block (cxx:2900) is a parameter `mem : Nat → Bool`.
The jamo index arrays are in the source file itself and are embedded
verbatim. -/

/-- `LastChanceConversion` (cxx:1569-1666): coerce certain characters
to ASCII equivalents; returns the replacement bytes and the success
flag. -/
def LastChanceConversion (bs : List Nat) : List Nat × Bool :=
  if (UTF8ToUnicode bs).1 = 0xA0 ∨
      (0x2000 ≤ (UTF8ToUnicode bs).1 ∧ (UTF8ToUnicode bs).1 ≤ 0x200A) ∨
      (UTF8ToUnicode bs).1 = 0x202F then ([0x20], true)
  else if (UTF8ToUnicode bs).1 = 0xAD ∨
      (0x200B ≤ (UTF8ToUnicode bs).1 ∧ (UTF8ToUnicode bs).1 ≤ 0x200D) ∨
      (UTF8ToUnicode bs).1 = 0x2060 then ([], true)
  else if 0x2010 ≤ (UTF8ToUnicode bs).1 ∧ (UTF8ToUnicode bs).1 ≤ 0x2014 then
    ([0x2D], true)
  else if (UTF8ToUnicode bs).1 = 0x2015 then ([0x2D, 0x2D], true)
  else if 0x2018 ≤ (UTF8ToUnicode bs).1 ∧ (UTF8ToUnicode bs).1 ≤ 0x201B then
    ([0x27], true)
  else if 0x201C ≤ (UTF8ToUnicode bs).1 ∧ (UTF8ToUnicode bs).1 ≤ 0x201F then
    ([0x22], true)
  else if (UTF8ToUnicode bs).1 = 0x2026 then ([0x2E, 0x2E, 0x2E], true)
  else if (UTF8ToUnicode bs).1 = 0x2044 then ([0x2F], true)
  else if (UTF8ToUnicode bs).1 = 0x2053 then ([0x7E], true)
  else if (UTF8ToUnicode bs).1 = 0xFFFE then ([], false)
  else ([0x3F], false)

/-- Leading-consonant table of `UTF8ToEUCKR` (cxx:2788-2791). -/
def euckrTableL : List Nat :=
  [0, 1, 3, 6, 7, 8, 16, 17, 18, 20, 21, 22, 23, 24, 25, 26, 27, 28, 29]

/-- Trailing-consonant table of `UTF8ToEUCKR` (cxx:2793-2796). -/
def euckrTableT : List Nat :=
  [51, 0, 1, 2, 3, 4, 5, 6, 8, 9, 10, 11, 12, 13, 14, 15,
   16, 17, 19, 20, 21, 22, 23, 25, 26, 27, 28, 29]

/-- One iteration of the `UTF8ToEUCKR` while loop (cxx:2764-2819). -/
def utf8ToEuckrUnit (table : Nat → Nat) (bs : List Nat) :
    List Nat × Nat × Bool :=
  if (UTF8ToUnicode bs).1 < 0x80 then
    ([(UTF8ToUnicode bs).1], (UTF8ToUnicode bs).2, true)
  else if table (UTF8ToUnicode bs).1 < 8836 then
    ([0xA1 + table (UTF8ToUnicode bs).1 / 94,
      0xA1 + table (UTF8ToUnicode bs).1 % 94], (UTF8ToUnicode bs).2, true)
  else if 0xAC00 ≤ (UTF8ToUnicode bs).1 ∧ (UTF8ToUnicode bs).1 ≤ 0xD7A3 then
    -- 8-byte jamo code for hangul absent from KS X 1001 (cxx:2784-2811)
    ([0xA4, 0xD4,
      0xA4, 0xA1 + euckrTableL.getD
        (((UTF8ToUnicode bs).1 - 0xAC00) / 28 / 21) 0,
      0xA4, 0xBF + ((UTF8ToUnicode bs).1 - 0xAC00) / 28 % 21,
      0xA4, 0xA1 + euckrTableT.getD
        (((UTF8ToUnicode bs).1 - 0xAC00) % 28) 0],
      (UTF8ToUnicode bs).2, true)
  else
    ((LastChanceConversion bs).1, (UTF8ToUnicode bs).2,
      (LastChanceConversion bs).2)

/-- The `UTF8ToEUCKR` while loop (cxx:2764-2819), fueled. -/
def utf8ToEuckrLoop (table : Nat → Nat) :
    Nat → Nat → List Nat → List Nat × Option Nat
  | 0, _, _ => ([], none)
  | _ + 1, _, [] => ([], none)
  | fuel + 1, pos, b :: rest =>
    let u := utf8ToEuckrUnit table (b :: rest)
    let r := utf8ToEuckrLoop table fuel (pos + u.2.1) ((b :: rest).drop u.2.1)
    (u.1 ++ r.1, if u.2.2 then r.2 else some pos)

/-- `vtkDICOMCharacterSet::UTF8ToEUCKR` (cxx:2755-2821). -/
def UTF8ToEUCKR (table : Nat → Nat) (bs : List Nat) : List Nat × Nat :=
  let r := utf8ToEuckrLoop table bs.length 0 bs
  (r.1, r.2.getD bs.length)

/-- Leading-consonant index table of `EUCKRToUTF8` (cxx:2869-2874). -/
def euckrJamoL : List Nat :=
  [1, 2, 0, 3, 0, 0, 4, 5, 6, 0, 0, 0, 0, 0, 0,
   0, 7, 8, 9, 0, 10, 11, 12, 13, 14, 15, 16, 17, 18, 19, 0,
   0, 0, 0, 0, 0, 0, 0, 0, 0, 0, 0, 0, 0, 0, 0, 0,
   0, 0, 0, 0, 20]

/-- Trailing-consonant index table of `EUCKRToUTF8` (cxx:2876-2881). -/
def euckrJamoT : List Nat :=
  [2, 3, 4, 5, 6, 7, 8, 0, 9, 10, 11, 12, 13, 14, 15,
   16, 17, 18, 0, 19, 20, 21, 22, 23, 0, 24, 25, 26, 27, 28, 0,
   0, 0, 0, 0, 0, 0, 0, 0, 0, 0, 0, 0, 0, 0, 0, 0,
   0, 0, 0, 0, 1]

/-- Final emission of one decode unit: the bad-chars handler when the
code is 0xFFFD (cxx:2956-2964), the UTF-8 encoding otherwise. -/
def euckrFinish (code mode : Nat) (bad : List Nat) (n : Nat) :
    List Nat × Nat × Bool :=
  if code = 0xFFFD then (BadCharsToUTF8 bad mode, n, false)
  else (UnicodeToUTF8 code, n, true)

/-- The 8-byte jamo sequence handling of `EUCKRToUTF8`
(cxx:2860-2934): `code` is the two-byte table value used when the
sequence is not a valid jamo composition, `y1 y2 y3` the consonant and
vowel bytes. -/
def euckrJamo (mem : Nat → Bool) (mode : Nat) (code y1 y2 y3 : Nat)
    (bad : List Nat) : List Nat × Nat × Bool :=
  if 0xA1 ≤ y1 ∧ y1 ≤ 0xD4 ∧ euckrJamoL.getD (y1 - 0xA1) 0 ≠ 0 ∧
      0xBF ≤ y2 ∧ y2 ≤ 0xD4 ∧
      0xA1 ≤ y3 ∧ y3 ≤ 0xD4 ∧ euckrJamoT.getD (y3 - 0xA1) 0 ≠ 0 then
    if euckrJamoL.getD (y1 - 0xA1) 0 - 1 < 19 ∧ y2 - 0xBF < 21 then
      if mem (0xAC00 + ((euckrJamoL.getD (y1 - 0xA1) 0 - 1) * 21 +
          (y2 - 0xBF)) * 28 + (euckrJamoT.getD (y3 - 0xA1) 0 - 1)) then
        -- precomposed form exists: write compatibility codes (cxx:2900-2911)
        (UnicodeToUTF8 0x3164 ++ UnicodeToUTF8 (0x3090 + y1) ++
          UnicodeToUTF8 (0x3090 + y2) ++ UnicodeToUTF8 (0x3090 + y3),
          8, true)
      else
        (UnicodeToUTF8 (0xAC00 + ((euckrJamoL.getD (y1 - 0xA1) 0 - 1) * 21 +
          (y2 - 0xBF)) * 28 + (euckrJamoT.getD (y3 - 0xA1) 0 - 1)), 8, true)
    else if euckrJamoL.getD (y1 - 0xA1) 0 - 1 < 19 ∨ y2 - 0xBF < 21 ∨
        0 < euckrJamoT.getD (y3 - 0xA1) 0 - 1 then
      -- decomposed hangul with filler (cxx:2913-2924)
      (UnicodeToUTF8 (if euckrJamoL.getD (y1 - 0xA1) 0 - 1 < 19 then
          0x1100 + (euckrJamoL.getD (y1 - 0xA1) 0 - 1) else 0x115F) ++
        (if 0 < euckrJamoT.getD (y3 - 0xA1) 0 - 1 then
          UnicodeToUTF8 (if y2 - 0xBF < 21 then 0x1161 + (y2 - 0xBF)
            else 0x1160) ++
            UnicodeToUTF8 (0x11A7 + (euckrJamoT.getD (y3 - 0xA1) 0 - 1))
        else
          UnicodeToUTF8 (if y2 - 0xBF < 21 then 0x1161 + (y2 - 0xBF)
            else 0x1160)), 8, true)
    else
      -- all components are filler (cxx:2926-2933)
      (UnicodeToUTF8 0x3164 ++ UnicodeToUTF8 0x3164 ++
        UnicodeToUTF8 0x3164 ++ UnicodeToUTF8 0x3164, 8, true)
  else
    euckrFinish code mode bad 2

/-- The CP949 extension rows of `EUCKRToUTF8` (cxx:2936-2954). -/
def euckrCp949 (table : Nat → Nat) (mode : Nat) (x y : Nat)
    (bad2 bad1 : List Nat) : List Nat × Nat × Bool :=
  if (if 26 ≤ y - 0x41 then
        (if 52 ≤ y - 0x41 - 6 then
          (if x - 0x81 < 32 then (x - 0x81) * 178 + (y - 0x41 - 12)
            else (x - 0x81) * 84 + (y - 0x41 - 12) + 3008)
        else
          (if x - 0x81 < 32 then (x - 0x81) * 178 + (y - 0x41 - 6)
            else (x - 0x81) * 84 + (y - 0x41 - 6) + 3008))
      else
        (if x - 0x81 < 32 then (x - 0x81) * 178 + (y - 0x41)
          else (x - 0x81) * 84 + (y - 0x41) + 3008)) < 8822 then
    euckrFinish
      (table ((if 26 ≤ y - 0x41 then
          (if 52 ≤ y - 0x41 - 6 then
            (if x - 0x81 < 32 then (x - 0x81) * 178 + (y - 0x41 - 12)
              else (x - 0x81) * 84 + (y - 0x41 - 12) + 3008)
          else
            (if x - 0x81 < 32 then (x - 0x81) * 178 + (y - 0x41 - 6)
              else (x - 0x81) * 84 + (y - 0x41 - 6) + 3008))
        else
          (if x - 0x81 < 32 then (x - 0x81) * 178 + (y - 0x41)
            else (x - 0x81) * 84 + (y - 0x41) + 3008)) + 8836))
      mode bad2 2
  else (BadCharsToUTF8 bad1 mode, 1, false)

/-- One iteration of the `EUCKRToUTF8` while loop (cxx:2835-2964). -/
def euckrUnit (table : Nat → Nat) (mem : Nat → Bool) (mode : Nat)
    (x0 : Nat) (rest : List Nat) : List Nat × Nat × Bool :=
  if x0 % 256 ≤ 0x7F then ([x0 % 256], 1, true)
  else
    match rest with
    | [] => (BadCharsToUTF8 [x0] mode, 1, false)
    | y0 :: rest2 =>
      if 0x81 ≤ x0 % 256 ∧ x0 % 256 < 0xFF then
        if 0xA1 ≤ x0 % 256 ∧ 0xA1 ≤ y0 % 256 ∧ y0 % 256 < 0xFF then
          match rest2 with
          | c0 :: c1 :: c2 :: c3 :: c4 :: c5 :: _ =>
            if x0 % 256 = 0xA4 ∧ y0 % 256 = 0xD4 ∧
                c0 % 256 = 0xA4 ∧ 0xA1 ≤ c1 % 256 ∧
                c2 % 256 = 0xA4 ∧ 0xA1 ≤ c3 % 256 ∧
                c4 % 256 = 0xA4 ∧ 0xA1 ≤ c5 % 256 then
              euckrJamo mem mode
                (table ((x0 % 256 - 0xA1) * 94 + (y0 % 256 - 0xA1)))
                (c1 % 256) (c3 % 256) (c5 % 256) [x0, y0]
            else
              euckrFinish
                (table ((x0 % 256 - 0xA1) * 94 + (y0 % 256 - 0xA1)))
                mode [x0, y0] 2
          | _ =>
            euckrFinish
              (table ((x0 % 256 - 0xA1) * 94 + (y0 % 256 - 0xA1)))
              mode [x0, y0] 2
        else if (0x41 ≤ y0 % 256 ∧ y0 % 256 ≤ 0x5A) ∨
            (0x61 ≤ y0 % 256 ∧ y0 % 256 ≤ 0x7A) ∨
            (0x81 ≤ y0 % 256 ∧ y0 % 256 < 0xFF) then
          euckrCp949 table mode (x0 % 256) (y0 % 256) [x0, y0] [x0]
        else (BadCharsToUTF8 [x0] mode, 1, false)
      else (BadCharsToUTF8 [x0] mode, 1, false)

/-- The `EUCKRToUTF8` while loop (cxx:2835-2964), fueled. -/
def euckrLoop (table : Nat → Nat) (mem : Nat → Bool) (mode : Nat) :
    Nat → Nat → List Nat → List Nat × Option Nat
  | 0, _, _ => ([], none)
  | _ + 1, _, [] => ([], none)
  | fuel + 1, pos, b :: rest =>
    let u := euckrUnit table mem mode b rest
    let r := euckrLoop table mem mode fuel (pos + u.2.1)
      ((b :: rest).drop u.2.1)
    (u.1 ++ r.1, if u.2.2 then r.2 else some pos)

/-- `vtkDICOMCharacterSet::EUCKRToUTF8` (cxx:2824-2970). -/
def EUCKRToUTF8 (table : Nat → Nat) (mem : Nat → Bool) (bs : List Nat)
    (mode : Nat) : List Nat × Nat :=
  let r := euckrLoop table mem mode bs.length 0 bs
  (r.1, r.2.getD bs.length)

theorem utf8DecPair_eq (c : Nat) (hc : 0xD800 ≤ c ∧ c < 0xDC00)
    (rest : List Nat) :
    utf8DecPair c rest = utf8ClassValue (utf8ClassPair c rest) := by
  match rest with
  | [] => rfl
  | [b3] =>
    simp only [utf8DecPair, utf8ClassPair]
    split_ifs <;>
      first
        | (simp only [utf8ClassValue, Prod.mk.injEq, and_true] <;> omega)
        | (exfalso; omega)
        | rfl
  | [b3, b4] =>
    have h4 : b4 % 256 < 256 := Nat.mod_lt _ (by omega)
    simp only [utf8DecPair, utf8ClassPair]
    split_ifs <;>
      first
        | (simp only [utf8ClassValue, Prod.mk.injEq, and_true] <;> omega)
        | (exfalso; omega)
        | rfl
  | b3 :: b4 :: b5 :: r =>
    have h4 : b4 % 256 < 256 := Nat.mod_lt _ (by omega)
    have h5 : b5 % 256 < 256 := Nat.mod_lt _ (by omega)
    simp only [utf8DecPair, utf8ClassPair]
    split_ifs <;>
      first
        | (simp only [utf8ClassValue, Prod.mk.injEq, and_true] <;> omega)
        | (exfalso; omega)
        | rfl

theorem utf8Dec2Tail_eq (c0 : Nat) (h : 0xC2 ≤ c0 ∧ c0 < 0xE0)
    (rest : List Nat) :
    utf8Dec2Tail c0 rest =
      utf8ClassValue
        (match rest with
         | [] => .truncated 1
         | b1 :: _ =>
           let s := b1 % 256
           if 0x80 ≤ s ∧ s ≤ 0xBF then
             .decoded ((c0 - 0xC0) * 64 + (s - 0x80)) 2
           else .malformed 1) := by
  match rest with
  | [] => rfl
  | b1 :: t =>
    have h1 : b1 % 256 < 256 := Nat.mod_lt _ (by omega)
    simp only [utf8Dec2Tail]
    split_ifs <;>
      first
        | (simp only [utf8ClassValue, Prod.mk.injEq, and_true] <;> omega)
        | (exfalso; omega)
        | rfl

theorem utf8Dec3Tail_eq (c0 : Nat) (h : 0xE0 ≤ c0 ∧ c0 < 0xF0)
    (rest : List Nat) :
    utf8Dec3Tail c0 rest =
      utf8ClassValue
        (match rest with
         | [] => .truncated 1
         | b1 :: rest1 =>
           let s := b1 % 256
           let lo := if c0 = 0xE0 then 0xA0 else 0x80
           if ¬(lo ≤ s ∧ s ≤ 0xBF) then .malformed 1
           else
             match rest1 with
             | [] => .truncated 2
             | b2 :: rest2 =>
               let s2 := b2 % 256
               if ¬(0x80 ≤ s2 ∧ s2 ≤ 0xBF) then .malformed 2
               else
                 let c := (c0 - 0xE0) * 4096 + (s - 0x80) * 64 + (s2 - 0x80)
                 if 0xD800 ≤ c ∧ c ≤ 0xDBFF then utf8ClassPair c rest2
                 else .decoded c 3) := by
  match rest with
  | [] => rfl
  | [b1] =>
    have h1 : b1 % 256 < 256 := Nat.mod_lt _ (by omega)
    simp only [utf8Dec3Tail]
    split_ifs <;>
      first
        | (simp only [utf8ClassValue, Prod.mk.injEq, and_true] <;> omega)
        | (exfalso; omega)
        | rfl
  | b1 :: b2 :: r =>
    have h1 : b1 % 256 < 256 := Nat.mod_lt _ (by omega)
    have h2 : b2 % 256 < 256 := Nat.mod_lt _ (by omega)
    simp only [utf8Dec3Tail]
    split_ifs <;>
      first
        | (simp only [utf8ClassValue, Prod.mk.injEq, and_true] <;> omega)
        | (rw [utf8DecPair_eq _ (by constructor <;> omega) r,
            show (c0 % 16 * 64 + b1 % 256 % 64) * 64 + b2 % 256 % 64 =
              (c0 - 0xE0) * 4096 + (b1 % 256 - 0x80) * 64 + (b2 % 256 - 0x80)
              from by omega])
        | (exfalso; omega)
        | rfl

theorem utf8Dec4Tail_eq (c0 : Nat) (h : 0xF0 ≤ c0 ∧ c0 < 0xF8)
    (rest : List Nat) :
    utf8Dec4Tail c0 rest =
      utf8ClassValue
        (match rest with
         | [] => .truncated 1
         | b1 :: rest1 =>
           let s := b1 % 256
           let lo := if c0 = 0xF0 then 0x90 else 0x80
           if ¬(lo ≤ s ∧ s ≤ 0xBF) then .malformed 1
           else
             match rest1 with
             | [] => .truncated 2
             | b2 :: rest2 =>
               let s2 := b2 % 256
               if ¬(0x80 ≤ s2 ∧ s2 ≤ 0xBF) then .malformed 2
               else
                 match rest2 with
                 | [] => .truncated 3
                 | b3 :: _ =>
                   let s3 := b3 % 256
                   if ¬(0x80 ≤ s3 ∧ s3 ≤ 0xBF) then .malformed 3
                   else
                     let c := (c0 - 0xF0) * 262144 + (s - 0x80) * 4096 +
                       (s2 - 0x80) * 64 + (s3 - 0x80)
                     if 0x10FFFF < c then .malformed 4
                     else .decoded c 4) := by
  match rest with
  | [] => rfl
  | [b1] =>
    have h1 : b1 % 256 < 256 := Nat.mod_lt _ (by omega)
    simp only [utf8Dec4Tail]
    split_ifs <;>
      first
        | (simp only [utf8ClassValue, Prod.mk.injEq, and_true] <;> omega)
        | (exfalso; omega)
        | rfl
  | [b1, b2] =>
    have h1 : b1 % 256 < 256 := Nat.mod_lt _ (by omega)
    have h2 : b2 % 256 < 256 := Nat.mod_lt _ (by omega)
    simp only [utf8Dec4Tail]
    split_ifs <;>
      first
        | (simp only [utf8ClassValue, Prod.mk.injEq, and_true] <;> omega)
        | (exfalso; omega)
        | rfl
  | b1 :: b2 :: b3 :: r =>
    have h1 : b1 % 256 < 256 := Nat.mod_lt _ (by omega)
    have h2 : b2 % 256 < 256 := Nat.mod_lt _ (by omega)
    have h3 : b3 % 256 < 256 := Nat.mod_lt _ (by omega)
    simp only [utf8Dec4Tail]
    split_ifs <;>
      first
        | (simp only [utf8ClassValue, Prod.mk.injEq, and_true] <;> omega)
        | (exfalso; omega)
        | rfl

/-- The decoder agrees with the spec-side classifier on every input. -/
theorem utf8ToUnicode_eq_classify (bs : List Nat) :
    UTF8ToUnicode bs = utf8ClassValue (utf8Classify bs) := by
  match bs with
  | [] => rfl
  | b0 :: rest =>
    have h0 : b0 % 256 < 256 := Nat.mod_lt _ (by omega)
    simp only [UTF8ToUnicode, utf8Classify]
    by_cases hA : b0 % 256 < 0x80
    · rw [if_pos hA, if_pos (by omega : b0 % 256 ≤ 0x7F)]
      rfl
    · rw [if_neg hA, if_neg (by omega : ¬ b0 % 256 ≤ 0x7F)]
      by_cases hB0 : b0 % 256 < 0xC0
      · -- stray continuation byte 0x80..0xBF
        rw [if_neg (by omega : ¬ (0xC0 ≤ b0 % 256 ∧ b0 % 256 < 0xE0)),
          if_neg (by omega : ¬ (0xE0 ≤ b0 % 256 ∧ b0 % 256 < 0xF0)),
          if_neg (by omega : ¬ (0xF0 ≤ b0 % 256 ∧ b0 % 256 < 0xF8)),
          if_pos (by omega : b0 % 256 < 0xC2)]
        rfl
      · by_cases hB1 : b0 % 256 < 0xC2
        · -- overlong leads 0xC0, 0xC1
          rw [if_pos (by omega : 0xC0 ≤ b0 % 256 ∧ b0 % 256 < 0xE0),
            if_pos (by omega : b0 % 256 % 32 < 2), if_pos hB1]
          rfl
        · by_cases hB : b0 % 256 < 0xE0
          · rw [if_pos (by omega : 0xC0 ≤ b0 % 256 ∧ b0 % 256 < 0xE0),
              if_neg (by omega : ¬ b0 % 256 % 32 < 2), if_neg hB1,
              if_pos (by omega : b0 % 256 ≤ 0xDF)]
            exact utf8Dec2Tail_eq _ (by omega) rest
          · rw [if_neg (by omega : ¬ (0xC0 ≤ b0 % 256 ∧ b0 % 256 < 0xE0)),
              if_neg hB1, if_neg (by omega : ¬ b0 % 256 ≤ 0xDF)]
            by_cases hC : b0 % 256 < 0xF0
            · rw [if_pos (by omega : 0xE0 ≤ b0 % 256 ∧ b0 % 256 < 0xF0),
                if_pos (by omega : b0 % 256 ≤ 0xEF)]
              exact utf8Dec3Tail_eq _ (by omega) rest
            · rw [if_neg (by omega : ¬ (0xE0 ≤ b0 % 256 ∧ b0 % 256 < 0xF0)),
                if_neg (by omega : ¬ b0 % 256 ≤ 0xEF)]
              by_cases hD : b0 % 256 < 0xF8
              · rw [if_pos (by omega : 0xF0 ≤ b0 % 256 ∧ b0 % 256 < 0xF8),
                  if_pos (by omega : b0 % 256 ≤ 0xF7)]
                exact utf8Dec4Tail_eq _ (by omega) rest
              · rw [if_neg (by omega : ¬ (0xF0 ≤ b0 % 256 ∧ b0 % 256 < 0xF8)),
                  if_neg (by omega : ¬ b0 % 256 ≤ 0xF7)]
                rfl

theorem validRun_nil (fuel : Nat) : validRun fuel [] = true := by
  cases fuel <;> rfl

/-- The fuel does not matter once it covers the input length. -/
theorem validRun_fuel :
    ∀ fuel fuel' bs, bs.length ≤ fuel → bs.length ≤ fuel' →
      validRun fuel bs = validRun fuel' bs := by
  intro fuel
  induction fuel with
  | zero =>
    intro fuel' bs h _
    have hb : bs = [] := List.eq_nil_of_length_eq_zero (by omega)
    subst hb
    rw [validRun_nil, validRun_nil]
  | succ fuel ih =>
    intro fuel' bs h h'
    match bs with
    | [] => rw [validRun_nil, validRun_nil]
    | b0 :: rest =>
      match fuel' with
      | 0 => simp only [List.length_cons] at h'; omega
      | fuel' + 1 =>
        simp only [validRun]
        simp only [List.length_cons] at h h'
        split_ifs <;>
          first
            | rfl
            | (apply ih <;> (try simp only [List.length_drop]) <;> omega)

/-- Decoding an encoded scalar (not a high surrogate) from the front of
a stream returns exactly that code point and consumes exactly its
encoding. -/
theorem utf8ToUnicode_enc (c : Nat) (hc : c ≤ 0x10FFFF)
    (hs : ¬(0xD800 ≤ c ∧ c < 0xDC00)) (rest : List Nat) :
    UTF8ToUnicode (UnicodeToUTF8 c ++ rest) =
      (c, (UnicodeToUTF8 c).length) := by
  by_cases h1 : c ≤ 0x7F
  · rw [UnicodeToUTF8, if_pos h1]
    simp only [List.cons_append, List.nil_append, UTF8ToUnicode,
      List.length_cons, List.length_nil]
    rw [if_pos (by omega : c % 256 < 0x80)]
    simp only [Prod.mk.injEq, and_true]
    omega
  · by_cases h2 : c ≤ 0x7FF
    · rw [UnicodeToUTF8, if_neg h1, if_pos h2]
      simp only [List.cons_append, List.nil_append, UTF8ToUnicode,
        utf8Dec2Tail, List.length_cons, List.length_nil]
      have ha : (0xC0 + c / 64) % 256 = 0xC0 + c / 64 :=
        Nat.mod_eq_of_lt (by omega)
      have hb : (0x80 + c % 64) % 256 = 0x80 + c % 64 :=
        Nat.mod_eq_of_lt (by omega)
      rw [ha, hb]
      rw [if_neg (by omega : ¬ 0xC0 + c / 64 < 0x80),
        if_pos (by omega : 0xC0 ≤ 0xC0 + c / 64 ∧ 0xC0 + c / 64 < 0xE0),
        if_neg (by omega : ¬ (0xC0 + c / 64) % 32 < 2),
        if_pos (by omega : 0x80 ≤ 0x80 + c % 64 ∧ 0x80 + c % 64 < 0xC0)]
      simp only [Prod.mk.injEq, and_true]
      omega
    · by_cases h3 : c ≤ 0xFFFF
      · rw [UnicodeToUTF8, if_neg h1, if_neg h2, if_pos h3]
        simp only [List.cons_append, List.nil_append, UTF8ToUnicode,
          utf8Dec3Tail, List.length_cons, List.length_nil]
        have ha : (0xE0 + c / 4096) % 256 = 0xE0 + c / 4096 :=
          Nat.mod_eq_of_lt (by omega)
        have hb : (0x80 + c / 64 % 64) % 256 = 0x80 + c / 64 % 64 :=
          Nat.mod_eq_of_lt (by omega)
        have hd : (0x80 + c % 64) % 256 = 0x80 + c % 64 :=
          Nat.mod_eq_of_lt (by omega)
        rw [ha, hb, hd]
        rw [if_neg (by omega : ¬ 0xE0 + c / 4096 < 0x80),
          if_neg (by omega :
            ¬ (0xC0 ≤ 0xE0 + c / 4096 ∧ 0xE0 + c / 4096 < 0xE0)),
          if_pos (by omega :
            0xE0 ≤ 0xE0 + c / 4096 ∧ 0xE0 + c / 4096 < 0xF0),
          if_neg (by omega :
            ¬ (((0xE0 + c / 4096) % 16 = 0 ∧ (0x80 + c / 64 % 64) % 64 < 32) ∨
               ¬(0x80 ≤ 0x80 + c / 64 % 64 ∧ 0x80 + c / 64 % 64 < 0xC0))),
          if_neg (by omega :
            ¬ ¬(0x80 ≤ 0x80 + c % 64 ∧ 0x80 + c % 64 < 0xC0)),
          if_neg (by omega :
            ¬ (0xD800 ≤ ((0xE0 + c / 4096) % 16 * 64 +
                (0x80 + c / 64 % 64) % 64) * 64 + (0x80 + c % 64) % 64 ∧
               ((0xE0 + c / 4096) % 16 * 64 +
                (0x80 + c / 64 % 64) % 64) * 64 + (0x80 + c % 64) % 64 <
                0xDC00))]
        simp only [Prod.mk.injEq, and_true]
        omega
      · rw [UnicodeToUTF8, if_neg h1, if_neg h2, if_neg h3,
          if_pos (by omega : c ≤ 0x10FFFF)]
        simp only [List.cons_append, List.nil_append, UTF8ToUnicode,
          utf8Dec4Tail, List.length_cons, List.length_nil]
        have ha : (0xF0 + c / 262144) % 256 = 0xF0 + c / 262144 :=
          Nat.mod_eq_of_lt (by omega)
        have hb : (0x80 + c / 4096 % 64) % 256 = 0x80 + c / 4096 % 64 :=
          Nat.mod_eq_of_lt (by omega)
        have hd : (0x80 + c / 64 % 64) % 256 = 0x80 + c / 64 % 64 :=
          Nat.mod_eq_of_lt (by omega)
        have he : (0x80 + c % 64) % 256 = 0x80 + c % 64 :=
          Nat.mod_eq_of_lt (by omega)
        rw [ha, hb, hd, he]
        rw [if_neg (by omega : ¬ 0xF0 + c / 262144 < 0x80),
          if_neg (by omega :
            ¬ (0xC0 ≤ 0xF0 + c / 262144 ∧ 0xF0 + c / 262144 < 0xE0)),
          if_neg (by omega :
            ¬ (0xE0 ≤ 0xF0 + c / 262144 ∧ 0xF0 + c / 262144 < 0xF0)),
          if_pos (by omega :
            0xF0 ≤ 0xF0 + c / 262144 ∧ 0xF0 + c / 262144 < 0xF8),
          if_neg (by omega :
            ¬ (((0xF0 + c / 262144) % 8 = 0 ∧ (0x80 + c / 4096 % 64) % 64 < 16) ∨
               ¬(0x80 ≤ 0x80 + c / 4096 % 64 ∧ 0x80 + c / 4096 % 64 < 0xC0))),
          if_neg (by omega :
            ¬ ¬(0x80 ≤ 0x80 + c / 64 % 64 ∧ 0x80 + c / 64 % 64 < 0xC0)),
          if_neg (by omega :
            ¬ ¬(0x80 ≤ 0x80 + c % 64 ∧ 0x80 + c % 64 < 0xC0)),
          if_neg (by omega :
            ¬ 0x10FFFF < (((0xF0 + c / 262144) % 8 * 64 +
              (0x80 + c / 4096 % 64) % 64) * 64 + (0x80 + c / 64 % 64) % 64) *
              64 + (0x80 + c % 64) % 64)]
        simp only [Prod.mk.injEq, and_true]
        omega

theorem ballSplit_sound (p : Nat → Bool) :
    ∀ fuel lo n, ballSplit p fuel lo n = true →
      ∀ i, i < n → p (lo + i) = true := by
  intro fuel
  induction fuel with
  | zero =>
    intro lo n h i hi
    simp only [ballSplit, Bool.or_eq_true, decide_eq_true_eq,
      Bool.and_eq_true] at h
    rcases h with h | ⟨h1, h2⟩
    · omega
    · have : i = 0 := by omega
      subst this
      simpa using h2
  | succ fuel ih =>
    intro lo n h i hi
    by_cases hn : n ≤ 1
    · simp only [ballSplit, if_pos hn, Bool.or_eq_true, decide_eq_true_eq,
        Bool.and_eq_true] at h
      rcases h with h | ⟨h1, h2⟩
      · omega
      · have : i = 0 := by omega
        subst this
        simpa using h2
    · simp only [ballSplit, if_neg hn, Bool.and_eq_true] at h
      by_cases hc : i < n / 2
      · exact ih lo (n / 2) h.1 i hc
      · have := ih (lo + n / 2) (n - n / 2) h.2 (i - n / 2) (by omega)
        have he : lo + n / 2 + (i - n / 2) = lo + i := by omega
        rwa [he] at this

theorem windowOk (lo n : Nat) (h : ballSplit foldPointOk 12 lo n = true)
    (c : Nat) (hc : lo ≤ c ∧ c < lo + n) : foldPointOk c = true := by
  have := ballSplit_sound foldPointOk 12 lo n h (c - lo) (by omega)
  rwa [Nat.add_sub_cancel' hc.1] at this

theorem foldWin1 : ballSplit foldPointOk 12 0x41 26 = true := by decide

theorem foldWin2 : ballSplit foldPointOk 12 0xB5 43 = true := by decide

theorem foldWin3 : ballSplit foldPointOk 12 0x100 336 = true := by decide

theorem foldWin4 : ballSplit foldPointOk 12 0x345 1 = true := by decide

theorem foldWin5 : ballSplit foldPointOk 12 0x370 487 = true := by decide

theorem foldWin6 : ballSplit foldPointOk 12 0x587 1 = true := by decide

theorem foldWin7 : ballSplit foldPointOk 12 0x10A0 46 = true := by decide

theorem foldWin8 : ballSplit foldPointOk 12 0x13F8 6 = true := by decide

theorem foldWin9 : ballSplit foldPointOk 12 0x1E00 509 = true := by decide

theorem foldWin10 : ballSplit foldPointOk 12 0x2126 94 = true := by decide

theorem foldWin11 : ballSplit foldPointOk 12 0x24B6 26 = true := by decide

theorem foldWin12 : ballSplit foldPointOk 12 0x2C00 244 = true := by decide

theorem foldWin13 : ballSplit foldPointOk 12 0xA640 375 = true := by decide

theorem foldWin14 : ballSplit foldPointOk 12 0xAB70 80 = true := by decide

theorem foldWin15 : ballSplit foldPointOk 12 0xFB00 24 = true := by decide

theorem foldWin16 : ballSplit foldPointOk 12 0xFF21 26 = true := by decide

theorem foldWin17 : ballSplit foldPointOk 12 0x10400 40 = true := by decide

theorem foldWin18 : ballSplit foldPointOk 12 0x10C80 51 = true := by decide

theorem foldWin19 : ballSplit foldPointOk 12 0x118A0 32 = true := by decide

theorem foldBk01_inert (c : Nat) (h : ¬(0xB5 ≤ c ∧ c < 0xB5 + 43)) :
    foldBk01 c = (c, 0, 0) := by
  simp only [foldBk01]
  split_ifs <;> first | (exfalso; omega) | rfl

theorem foldBk02_inert (c : Nat) (h : ¬(0x100 ≤ c ∧ c < 0x100 + 336)) :
    foldBk02 c = (c, 0, 0) := by
  simp only [foldBk02]
  split_ifs <;> first | (exfalso; omega) | rfl

theorem foldBk03_inert (c : Nat) (h : ¬(0x100 ≤ c ∧ c < 0x100 + 336))
    (h4 : c ≠ 0x345) : foldBk03 c = (c, 0, 0) := by
  rw [foldBk03, if_neg (by omega : ¬(0x180 ≤ c ∧ c ≤ 0x1CA)),
    if_neg (by omega : ¬(0x1CB ≤ c ∧ c ≤ 0x1DC)),
    if_neg (by omega : ¬(0x1DE ≤ c ∧ c ≤ 0x1EF)),
    if_neg (by omega : ¬c = 0x1F0),
    if_neg (by omega : ¬(0x1F0 ≤ c ∧ c ≤ 0x24F)),
    if_neg (by omega : ¬c = 0x345)]

theorem foldBk04_inert (c : Nat) (h : ¬(0x370 ≤ c ∧ c < 0x370 + 487)) :
    foldBk04 c = (c, 0, 0) := by
  rw [foldBk04, if_neg (by omega : ¬(0x370 ≤ c ∧ c ≤ 0x38F)),
    if_neg (by omega :
      ¬((0x391 ≤ c ∧ c ≤ 0x3A1) ∨ (0x3A3 ≤ c ∧ c ≤ 0x3AB))),
    if_neg (by omega : ¬c = 0x390), if_neg (by omega : ¬c = 0x3B0),
    if_neg (by omega : ¬c = 0x3C2),
    if_neg (by omega : ¬(0x3CF ≤ c ∧ c ≤ 0x3D6)),
    if_neg (by omega : ¬(0x3D8 ≤ c ∧ c ≤ 0x3EF)),
    if_neg (by omega : ¬(0x3F0 ≤ c ∧ c ≤ 0x3FF))]

theorem foldBk05_inert (c : Nat) (h : ¬(0x370 ≤ c ∧ c < 0x370 + 487)) :
    foldBk05 c = (c, 0, 0) := by
  simp only [foldBk05]
  split_ifs <;> first | (exfalso; omega) | rfl

theorem foldBk09_inert (c : Nat) (h : ¬(0x1F08 ≤ c ∧ c < 0x1F08 + 245)) :
    foldBk09 c = (c, 0, 0) := by
  rw [foldBk09,
    if_neg (by omega :
      ¬((0x1F08 ≤ c ∧ c ≤ 0x1F0F) ∨ (0x1F18 ≤ c ∧ c ≤ 0x1F1D) ∨
        (0x1F28 ≤ c ∧ c ≤ 0x1F2F) ∨ (0x1F38 ≤ c ∧ c ≤ 0x1F3F) ∨
        (0x1F48 ≤ c ∧ c ≤ 0x1F4D))),
    if_neg (by omega : ¬(0x1F50 ≤ c ∧ c ≤ 0x1F56 ∧ c % 2 = 0)),
    if_neg (by omega :
      ¬((0x1F59 ≤ c ∧ c ≤ 0x1F5F ∧ c % 2 = 1) ∨
        (0x1F68 ≤ c ∧ c ≤ 0x1F6F))),
    if_neg (by omega : ¬(0x1F80 ≤ c ∧ c ≤ 0x1FAF)),
    if_neg (by omega : ¬(0x1FB2 ≤ c ∧ c ≤ 0x1FFC))]

theorem foldBk11_inert (c : Nat) (h : ¬(0x2C00 ≤ c ∧ c < 0x2C00 + 244)) :
    foldBk11 c = (c, 0, 0) := by
  rw [foldBk11, if_neg (by omega : ¬(0x2C00 ≤ c ∧ c ≤ 0x2C2E)),
    if_neg (by omega : ¬(0x2C60 ≤ c ∧ c ≤ 0x2C7F)),
    if_neg (by omega : ¬(0x2C80 ≤ c ∧ c ≤ 0x2CF3))]

theorem foldBk12_inert (c : Nat) (h : ¬(0xA640 ≤ c ∧ c < 0xA640 + 375))
    (h2 : ¬(0xAB70 ≤ c ∧ c < 0xAB70 + 80)) : foldBk12 c = (c, 0, 0) := by
  rw [foldBk12,
    if_neg (by omega :
      ¬((0xA640 ≤ c ∧ c ≤ 0xA66D) ∨ (0xA680 ≤ c ∧ c ≤ 0xA69B))),
    if_neg (by omega : ¬(0xA722 ≤ c ∧ c ≤ 0xA76F ∧ c ≠ 0xA730)),
    if_neg (by omega : ¬(0xA779 ≤ c ∧ c ≤ 0xA77C)),
    if_neg (by omega : ¬c = 0xA77D),
    if_neg (by omega : ¬(0xA77E ≤ c ∧ c ≤ 0xA787)),
    if_neg (by omega : ¬c = 0xA78B), if_neg (by omega : ¬c = 0xA78D),
    if_neg (by omega : ¬(0xA790 ≤ c ∧ c ≤ 0xA7A9 ∧ c ≠ 0xA794)),
    if_neg (by omega : ¬(0xA7AA ≤ c ∧ c ≤ 0xA7B6)),
    if_neg (by omega : ¬(0xAB70 ≤ c ∧ c ≤ 0xABBF))]

theorem foldBk13_inert (c : Nat) (h : ¬(0xFB00 ≤ c ∧ c < 0xFB00 + 24)) :
    foldBk13 c = (c, 0, 0) := by
  rw [foldBk13, if_neg (by omega : ¬(0xFB00 ≤ c ∧ c ≤ 0xFB06)),
    if_neg (by omega : ¬(0xFB13 ≤ c ∧ c ≤ 0xFB17))]

theorem caseFoldTriple_inert (c : Nat) (h : foldInert c) :
    caseFoldTriple c = (c, 0, 0) := by
  obtain ⟨h1, h2, h3, h4, h5, h6, h7, h8, h9, h10,
    h11, h12, h13, h14, h15, h16, h17, h18, h19⟩ := h
  rw [caseFoldTriple]
  by_cases r0 : c ≤ 0x7f
  · rw [if_pos r0, if_neg (by omega : ¬(0x41 ≤ c ∧ c ≤ 0x5A))]
  rw [if_neg r0]
  by_cases r1 : c ≤ 0xff
  · rw [if_pos r1]; exact foldBk01_inert c h2
  rw [if_neg r1]
  by_cases r2 : c ≤ 0x17f
  · rw [if_pos r2]; exact foldBk02_inert c h3
  rw [if_neg r2]
  by_cases r3 : c ≤ 0x36f
  · rw [if_pos r3]; exact foldBk03_inert c h3 h4
  rw [if_neg r3]
  by_cases r4 : c ≤ 0x3ff
  · rw [if_pos r4]; exact foldBk04_inert c h5
  rw [if_neg r4]
  by_cases r5 : c ≤ 0x52f
  · rw [if_pos r5]; exact foldBk05_inert c h5
  rw [if_neg r5]
  by_cases r6 : c ≤ 0x1000
  · rw [if_pos r6, if_neg (by omega : ¬(0x531 ≤ c ∧ c ≤ 0x556)),
      if_neg (by omega : ¬c = 0x587)]
  rw [if_neg r6]
  by_cases r7 : c ≤ 0x13ff
  · rw [if_pos r7,
      if_neg (by omega :
        ¬((0x10A0 ≤ c ∧ c ≤ 0x10C5) ∨ c = 0x10C7 ∨ c = 0x10CD)),
      if_neg (by omega : ¬(0x13F8 ≤ c ∧ c ≤ 0x13FD))]
  rw [if_neg r7]
  by_cases r8 : c ≤ 0x1eff
  · rw [if_pos r8, if_neg (by omega : ¬(0x1E00 ≤ c ∧ c ≤ 0x1E95)),
      if_neg (by omega : ¬(0x1E96 ≤ c ∧ c ≤ 0x1E9B)),
      if_neg (by omega : ¬c = 0x1E9E),
      if_neg (by omega : ¬(0x1EA0 ≤ c ∧ c ≤ 0x1EFE))]
  rw [if_neg r8]
  by_cases r9 : c ≤ 0x1fff
  · rw [if_pos r9]; exact foldBk09_inert c (by omega)
  rw [if_neg r9]
  by_cases r10 : c ≤ 0x24ff
  · rw [if_pos r10, if_neg (by omega : ¬c = 0x2126),
      if_neg (by omega : ¬c = 0x212A), if_neg (by omega : ¬c = 0x212B),
      if_neg (by omega : ¬c = 0x2132),
      if_neg (by omega : ¬(0x2160 ≤ c ∧ c ≤ 0x216F)),
      if_neg (by omega : ¬c = 0x2183),
      if_neg (by omega : ¬(0x24B6 ≤ c ∧ c ≤ 0x24CF))]
  rw [if_neg r10]
  by_cases r11 : c ≤ 0x2cff
  · rw [if_pos r11]; exact foldBk11_inert c h12
  rw [if_neg r11]
  by_cases r12 : c ≤ 0x9fff
  · rw [if_pos r12]
  rw [if_neg r12]
  by_cases r13 : c ≤ 0xabff
  · rw [if_pos r13]; exact foldBk12_inert c h13 h14
  rw [if_neg r13]
  by_cases r14 : c ≤ 0xfaff
  · rw [if_pos r14]
  rw [if_neg r14]
  by_cases r15 : c ≤ 0xfbff
  · rw [if_pos r15]; exact foldBk13_inert c h15
  rw [if_neg r15]
  by_cases r16 : c ≤ 0xffff
  · rw [if_pos r16, if_neg (by omega : ¬(0xFF21 ≤ c ∧ c ≤ 0xFF3A))]
  rw [if_neg r16,
    if_neg (by omega : ¬(0x10400 ≤ c ∧ c ≤ 0x10427)),
    if_neg (by omega : ¬(0x10C80 ≤ c ∧ c ≤ 0x10CB2)),
    if_neg (by omega : ¬(0x118A0 ≤ c ∧ c ≤ 0x118BF))]

theorem foldPointGood_of_ok (c : Nat) (h : foldPointOk c = true) :
    FoldPointGood c := by
  intro o ho
  have := List.all_eq_true.mp h o ho
  simp only [Bool.and_eq_true, Bool.or_eq_true, Bool.not_eq_true',
    decide_eq_true_eq, decide_eq_false_iff_not, Bool.and_eq_false_iff,
    decide_eq_false_iff_not] at this
  obtain ⟨⟨⟨⟨ha, hb⟩, hcq⟩, hd⟩, he⟩ := this
  refine ⟨⟨ha, ?_⟩, hcq, ?_, ?_⟩
  · intro hs
    rcases hb with hb | hb
    · exact hb hs.1
    · exact hb hs.2
  · intro hfe
    rcases hd with hd | hd
    · exact absurd hfe hd
    · exact hd
  · intro hff
    rcases he with he | he
    · exact absurd hff he
    · exact he

theorem foldPointGood_all (c : Nat) (hc : c ≤ 0x10FFFF)
    (hs : ¬(0xD800 ≤ c ∧ c ≤ 0xDFFF)) : FoldPointGood c := by
  by_cases w1 : 0x41 ≤ c ∧ c < 0x41 + 26
  · exact foldPointGood_of_ok c (windowOk _ _ foldWin1 c w1)
  by_cases w2 : 0xB5 ≤ c ∧ c < 0xB5 + 43
  · exact foldPointGood_of_ok c (windowOk _ _ foldWin2 c w2)
  by_cases w3 : 0x100 ≤ c ∧ c < 0x100 + 336
  · exact foldPointGood_of_ok c (windowOk _ _ foldWin3 c w3)
  by_cases w4 : c = 0x345
  · exact foldPointGood_of_ok c (windowOk _ _ foldWin4 c (by omega))
  by_cases w5 : 0x370 ≤ c ∧ c < 0x370 + 487
  · exact foldPointGood_of_ok c (windowOk _ _ foldWin5 c w5)
  by_cases w6 : c = 0x587
  · exact foldPointGood_of_ok c (windowOk _ _ foldWin6 c (by omega))
  by_cases w7 : 0x10A0 ≤ c ∧ c < 0x10A0 + 46
  · exact foldPointGood_of_ok c (windowOk _ _ foldWin7 c w7)
  by_cases w8 : 0x13F8 ≤ c ∧ c < 0x13F8 + 6
  · exact foldPointGood_of_ok c (windowOk _ _ foldWin8 c w8)
  by_cases w9 : 0x1E00 ≤ c ∧ c < 0x1E00 + 509
  · exact foldPointGood_of_ok c (windowOk _ _ foldWin9 c w9)
  by_cases w10 : 0x2126 ≤ c ∧ c < 0x2126 + 94
  · exact foldPointGood_of_ok c (windowOk _ _ foldWin10 c w10)
  by_cases w11 : 0x24B6 ≤ c ∧ c < 0x24B6 + 26
  · exact foldPointGood_of_ok c (windowOk _ _ foldWin11 c w11)
  by_cases w12 : 0x2C00 ≤ c ∧ c < 0x2C00 + 244
  · exact foldPointGood_of_ok c (windowOk _ _ foldWin12 c w12)
  by_cases w13 : 0xA640 ≤ c ∧ c < 0xA640 + 375
  · exact foldPointGood_of_ok c (windowOk _ _ foldWin13 c w13)
  by_cases w14 : 0xAB70 ≤ c ∧ c < 0xAB70 + 80
  · exact foldPointGood_of_ok c (windowOk _ _ foldWin14 c w14)
  by_cases w15 : 0xFB00 ≤ c ∧ c < 0xFB00 + 24
  · exact foldPointGood_of_ok c (windowOk _ _ foldWin15 c w15)
  by_cases w16 : 0xFF21 ≤ c ∧ c < 0xFF21 + 26
  · exact foldPointGood_of_ok c (windowOk _ _ foldWin16 c w16)
  by_cases w17 : 0x10400 ≤ c ∧ c < 0x10400 + 40
  · exact foldPointGood_of_ok c (windowOk _ _ foldWin17 c w17)
  by_cases w18 : 0x10C80 ≤ c ∧ c < 0x10C80 + 51
  · exact foldPointGood_of_ok c (windowOk _ _ foldWin18 c w18)
  by_cases w19 : 0x118A0 ≤ c ∧ c < 0x118A0 + 32
  · exact foldPointGood_of_ok c (windowOk _ _ foldWin19 c w19)
  -- otherwise the cascade is inert at c
  have hid : caseFoldTriple c = (c, 0, 0) :=
    caseFoldTriple_inert c
      ⟨w1, w2, w3, w4, w5, w6, w7, w8, w9, w10,
       w11, w12, w13, w14, w15, w16, w17, w18, w19⟩
  intro o ho
  have hoc : o = c := by
    simp only [foldCodes, hid] at ho
    simpa using ho
  subst hoc
  exact ⟨⟨hc, hs⟩, hid, fun h => h, fun h => h⟩

theorem unicodeToUTF8_ne_nil (c : Nat) : UnicodeToUTF8 c ≠ [] := by
  unfold UnicodeToUTF8
  split_ifs <;> simp

theorem caseFoldUnicode_join (c : Nat) :
    CaseFoldUnicode c = ((foldCodes c).map UnicodeToUTF8).flatten := by
  simp only [CaseFoldUnicode, foldCodes]
  rcases caseFoldTriple c with ⟨a, b, d⟩
  by_cases hb : b ≠ 0 <;> by_cases hd : d ≠ 0 <;>
    simp [hb, hd]

theorem caseFoldStep_join (c : Nat) :
    caseFoldStep c = ((caseFoldStepCodes c).map UnicodeToUTF8).flatten := by
  simp only [caseFoldStep, caseFoldStepCodes]
  by_cases he : c = 0xFFFE
  · subst he; simp
  · by_cases hf : c = 0xFFFF
    · subst hf
      simp [he, caseFoldUnicode_join]
    · simp [he, hf, caseFoldUnicode_join]

theorem caseFoldStep_enc (o : Nat) (h1 : caseFoldTriple o = (o, 0, 0))
    (h2 : o ≠ 0xFFFE) (h3 : o ≠ 0xFFFF) :
    caseFoldStep o = UnicodeToUTF8 o := by
  simp only [caseFoldStep, if_neg h3, ne_eq, CaseFoldUnicode, h1]
  simp [h2]

theorem caseFoldStepCodes_good (c : Nat) (hc : c ≤ 0x10FFFF)
    (hs : ¬(0xD800 ≤ c ∧ c ≤ 0xDFFF)) :
    ∀ o ∈ caseFoldStepCodes c,
      (o ≤ 0x10FFFF ∧ ¬(0xD800 ≤ o ∧ o ≤ 0xDFFF)) ∧
      caseFoldTriple o = (o, 0, 0) ∧ o ≠ 0xFFFE ∧ o ≠ 0xFFFF := by
  intro o ho
  simp only [caseFoldStepCodes] at ho
  by_cases he : c = 0xFFFE
  · simp [he] at ho
  · rw [if_neg he] at ho
    by_cases hf : c = 0xFFFF
    · rw [if_pos hf] at ho
      have := foldPointGood_all 0xFFFD (by omega) (by omega) o ho
      exact ⟨this.1, this.2.1, fun h => absurd (this.2.2.1 h) (by omega),
        fun h => absurd (this.2.2.2 h) (by omega)⟩
    · rw [if_neg hf] at ho
      have := foldPointGood_all c hc hs o ho
      exact ⟨this.1, this.2.1, fun h => absurd (this.2.2.1 h) he,
        fun h => absurd (this.2.2.2 h) hf⟩

theorem caseFoldLoop_cons_step (fuel : Nat) (bs : List Nat) (hbs : bs ≠ []) :
    caseFoldLoop (fuel + 1) bs =
      caseFoldStep (UTF8ToUnicode bs).1 ++
        caseFoldLoop fuel (bs.drop (UTF8ToUnicode bs).2) := by
  cases bs with
  | nil => exact absurd rfl hbs
  | cons b tl => rfl

theorem caseFoldLoop_chunks (cs : List Nat)
    (h : ∀ c ∈ cs, c ≤ 0x10FFFF ∧ ¬(0xD800 ≤ c ∧ c < 0xDC00)) :
    ∀ fuel, ((cs.map UnicodeToUTF8).flatten).length ≤ fuel →
      caseFoldLoop fuel ((cs.map UnicodeToUTF8).flatten) =
        (cs.map caseFoldStep).flatten := by
  induction cs with
  | nil =>
    intro fuel _
    match fuel with
    | 0 => rfl
    | fuel + 1 => rfl
  | cons c cs ih =>
    intro fuel hf
    have hc := h c (List.mem_cons_self c cs)
    simp only [List.map_cons, List.flatten_cons] at hf ⊢
    have hdec : UTF8ToUnicode
        (UnicodeToUTF8 c ++ (cs.map UnicodeToUTF8).flatten) =
        (c, (UnicodeToUTF8 c).length) :=
      utf8ToUnicode_enc c hc.1 hc.2 _
    have hlen : 1 ≤ (UnicodeToUTF8 c).length := by
      cases hu : UnicodeToUTF8 c with
      | nil => exact absurd hu (unicodeToUTF8_ne_nil c)
      | cons b tl => simp
    have hne : UnicodeToUTF8 c ++ (cs.map UnicodeToUTF8).flatten ≠ [] := by
      cases hu : UnicodeToUTF8 c with
      | nil => exact absurd hu (unicodeToUTF8_ne_nil c)
      | cons b tl => simp
    match fuel with
    | 0 =>
      exfalso
      rw [List.length_append] at hf
      omega
    | fuel + 1 =>
      rw [caseFoldLoop_cons_step fuel _ hne, hdec]
      show caseFoldStep c ++ caseFoldLoop fuel
          ((UnicodeToUTF8 c ++ (cs.map UnicodeToUTF8).flatten).drop
            (UnicodeToUTF8 c).length) = _
      rw [List.drop_left]
      rw [ih (fun x hx => h x (List.mem_cons_of_mem c hx)) fuel
        (by rw [List.length_append] at hf; omega)]

theorem caseFoldStep_flatten (cs : List Nat) :
    (cs.map caseFoldStep).flatten =
      (((cs.map caseFoldStepCodes).flatten).map UnicodeToUTF8).flatten := by
  induction cs with
  | nil => rfl
  | cons c cs ih =>
    simp only [List.map_cons, List.flatten_cons, List.map_append,
      List.flatten_append, ih, caseFoldStep_join c]

/-- One application of the fold loop turns a well-formed chunk stream
into the stream of folded chunks; a second application leaves that
output unchanged. -/
theorem caseFoldLoop_idem (cs : List Nat)
    (h : ∀ c ∈ cs, c ≤ 0x10FFFF ∧ ¬(0xD800 ≤ c ∧ c ≤ 0xDFFF)) :
    caseFoldLoop (((cs.map caseFoldStep).flatten).length)
        ((cs.map caseFoldStep).flatten) =
      (cs.map caseFoldStep).flatten := by
  have hout := caseFoldStep_flatten cs
  have hgood : ∀ o ∈ (cs.map caseFoldStepCodes).flatten,
      (o ≤ 0x10FFFF ∧ ¬(0xD800 ≤ o ∧ o ≤ 0xDFFF)) ∧
      caseFoldTriple o = (o, 0, 0) ∧ o ≠ 0xFFFE ∧ o ≠ 0xFFFF := by
    intro o ho
    rw [List.mem_flatten] at ho
    obtain ⟨l, hl, hol⟩ := ho
    rw [List.mem_map] at hl
    obtain ⟨c, hcs, rfl⟩ := hl
    exact caseFoldStepCodes_good c (h c hcs).1 (h c hcs).2 o hol
  rw [hout]
  rw [caseFoldLoop_chunks _ (fun o ho => ⟨(hgood o ho).1.1,
    fun hx => (hgood o ho).1.2 ⟨hx.1, by omega⟩⟩) _ le_rfl]
  have hmap : ((cs.map caseFoldStepCodes).flatten).map caseFoldStep =
      ((cs.map caseFoldStepCodes).flatten).map UnicodeToUTF8 := by
    apply List.map_congr_left
    intro o ho
    exact caseFoldStep_enc o (hgood o ho).2.1 (hgood o ho).2.2.1
      (hgood o ho).2.2.2
  rw [hmap]

theorem sjisLoop_eq_units (table : Nat → Nat) (mode : Nat) :
    ∀ fuel pos bs,
      sjisLoop table mode fuel pos bs =
        (((sjisUnits table mode fuel pos bs).map (fun u => u.2.1)).flatten,
          ((sjisUnits table mode fuel pos bs).find?
            (fun u => ! u.2.2)).map Prod.fst) := by
  intro fuel
  induction fuel with
  | zero => intro pos bs; rfl
  | succ fuel ih =>
    intro pos bs
    cases bs with
    | nil => rfl
    | cons b rest =>
      simp only [sjisLoop, sjisUnits, List.map_cons, List.flatten_cons,
        List.find?_cons]
      rw [ih]
      rcases h : (sjisUnit table mode b rest).2.2 with _ | _ <;> simp [h]

/-- C3: a decode call (here `SJISToUTF8`, the representative cited by the
claim) converts the whole input unit by unit: the output contains the
conversion of every unit, including units after an error, and the
returned offset is the start offset of the earliest unit that failed to
convert, or the input length when every unit converts successfully —
later errors never change the reported offset. -/
theorem C3_first_error_offset (table : Nat → Nat) (mode : Nat)
    (bs : List Nat) :
    (SJISToUTF8 table bs mode).1 =
      ((sjisUnits table mode bs.length 0 bs).map (fun u => u.2.1)).flatten ∧
    (SJISToUTF8 table bs mode).2 =
      (((sjisUnits table mode bs.length 0 bs).find?
          (fun u => ! u.2.2)).map Prod.fst).getD bs.length := by
  unfold SJISToUTF8
  rw [sjisLoop_eq_units]
  exact ⟨rfl, rfl⟩

theorem utf8Dec2Tail_fst_le (c0 : Nat) (rest : List Nat) :
    (utf8Dec2Tail c0 rest).1 ≤ 0xFFFF := by
  match rest with
  | [] => simp [utf8Dec2Tail]
  | b1 :: _ =>
    simp only [utf8Dec2Tail]
    split_ifs <;> first | decide | (simp; omega)

theorem utf8DecPair_fst_le (code : Nat) (rest : List Nat) :
    (utf8DecPair code rest).1 ≤ 0x10FFFF := by
  match rest with
  | [] => simp [utf8DecPair]
  | [b3] =>
    simp only [utf8DecPair]
    split_ifs <;> decide
  | [b3, b4] =>
    simp only [utf8DecPair]
    split_ifs <;> decide
  | b3 :: b4 :: b5 :: r =>
    simp only [utf8DecPair]
    split_ifs <;> first | decide | (simp; omega)

theorem utf8Dec3Tail_fst_le (c0 : Nat) (rest : List Nat) :
    (utf8Dec3Tail c0 rest).1 ≤ 0x10FFFF := by
  match rest with
  | [] => simp [utf8Dec3Tail]
  | [b1] =>
    simp only [utf8Dec3Tail]
    split_ifs <;> decide
  | b1 :: b2 :: rest2 =>
    simp only [utf8Dec3Tail]
    split_ifs <;>
      first
        | decide
        | exact utf8DecPair_fst_le _ _
        | (simp; omega)

theorem utf8Dec4Tail_fst_le (c0 : Nat) (rest : List Nat) :
    (utf8Dec4Tail c0 rest).1 ≤ 0x10FFFF := by
  match rest with
  | [] => simp [utf8Dec4Tail]
  | [b1] =>
    simp only [utf8Dec4Tail]
    split_ifs <;> decide
  | [b1, b2] =>
    simp only [utf8Dec4Tail]
    split_ifs <;> decide
  | b1 :: b2 :: b3 :: rest3 =>
    simp only [utf8Dec4Tail]
    split_ifs <;> first | decide | (simp; omega)

/-- The decoder never returns a code point above 0x10FFFF. -/
theorem utf8ToUnicode_fst_le (bs : List Nat) :
    (UTF8ToUnicode bs).1 ≤ 0x10FFFF := by
  match bs with
  | [] => decide
  | b0 :: rest =>
    simp only [UTF8ToUnicode]
    split_ifs <;>
      first
        | decide
        | (simp; omega)
        | exact le_trans (utf8Dec2Tail_fst_le _ _) (by decide)
        | exact utf8Dec3Tail_fst_le _ _
        | exact utf8Dec4Tail_fst_le _ _

theorem isValidUTF8_cons_ascii (b0 : Nat) (t : List Nat) (h : b0 ≤ 0x7F) :
    isValidUTF8 (b0 :: t) = isValidUTF8 t := by
  simp only [isValidUTF8, List.length_cons, validRun]
  rw [if_pos h]

theorem validRun_cons2 (fuel b0 b1 : Nat) (t : List Nat)
    (h0 : 0xC2 ≤ b0 ∧ b0 ≤ 0xDF) (h1 : 0x80 ≤ b1 ∧ b1 ≤ 0xBF) :
    validRun (fuel + 1) (b0 :: b1 :: t) = validRun fuel t := by
  simp only [validRun, List.getD_cons_zero, List.drop_succ_cons,
    List.drop_zero]
  rw [if_neg (by omega : ¬ b0 ≤ 0x7F), if_pos h0, if_pos h1]

theorem isValidUTF8_cons2 (b0 b1 : Nat) (t : List Nat)
    (h0 : 0xC2 ≤ b0 ∧ b0 ≤ 0xDF) (h1 : 0x80 ≤ b1 ∧ b1 ≤ 0xBF) :
    isValidUTF8 (b0 :: b1 :: t) = isValidUTF8 t := by
  simp only [isValidUTF8, List.length_cons]
  rw [validRun_cons2 (t.length + 1) b0 b1 t h0 h1]
  exact validRun_fuel _ _ _ (by omega) le_rfl

theorem validRun_cons3 (fuel b0 b1 b2 : Nat) (t : List Nat)
    (h0 : 0xE0 ≤ b0 ∧ b0 ≤ 0xEF)
    (h1 : ((b0 = 0xE0 ∧ 0xA0 ≤ b1 ∧ b1 ≤ 0xBF) ∨
           (b0 = 0xED ∧ 0x80 ≤ b1 ∧ b1 ≤ 0x9F) ∨
           (b0 ≠ 0xE0 ∧ b0 ≠ 0xED ∧ 0x80 ≤ b1 ∧ b1 ≤ 0xBF)) ∧
          (0x80 ≤ b2 ∧ b2 ≤ 0xBF)) :
    validRun (fuel + 1) (b0 :: b1 :: b2 :: t) = validRun fuel t := by
  simp only [validRun, List.getD_cons_zero, List.getD_cons_succ,
    List.drop_succ_cons, List.drop_zero]
  rw [if_neg (by omega : ¬ b0 ≤ 0x7F),
    if_neg (by omega : ¬ (0xC2 ≤ b0 ∧ b0 ≤ 0xDF)),
    if_pos h0, if_pos h1]

theorem isValidUTF8_cons3 (b0 b1 b2 : Nat) (t : List Nat)
    (h0 : 0xE0 ≤ b0 ∧ b0 ≤ 0xEF)
    (h1 : ((b0 = 0xE0 ∧ 0xA0 ≤ b1 ∧ b1 ≤ 0xBF) ∨
           (b0 = 0xED ∧ 0x80 ≤ b1 ∧ b1 ≤ 0x9F) ∨
           (b0 ≠ 0xE0 ∧ b0 ≠ 0xED ∧ 0x80 ≤ b1 ∧ b1 ≤ 0xBF)) ∧
          (0x80 ≤ b2 ∧ b2 ≤ 0xBF)) :
    isValidUTF8 (b0 :: b1 :: b2 :: t) = isValidUTF8 t := by
  simp only [isValidUTF8, List.length_cons]
  rw [validRun_cons3 (t.length + 1 + 1) b0 b1 b2 t h0 h1]
  exact validRun_fuel _ _ _ (by omega) le_rfl

theorem validRun_cons4 (fuel b0 b1 b2 b3 : Nat) (t : List Nat)
    (h0 : 0xF0 ≤ b0 ∧ b0 ≤ 0xF4)
    (h1 : ((b0 = 0xF0 ∧ 0x90 ≤ b1 ∧ b1 ≤ 0xBF) ∨
           (b0 = 0xF4 ∧ 0x80 ≤ b1 ∧ b1 ≤ 0x8F) ∨
           (b0 ≠ 0xF0 ∧ b0 ≠ 0xF4 ∧ 0x80 ≤ b1 ∧ b1 ≤ 0xBF)) ∧
          (0x80 ≤ b2 ∧ b2 ≤ 0xBF) ∧ (0x80 ≤ b3 ∧ b3 ≤ 0xBF)) :
    validRun (fuel + 1) (b0 :: b1 :: b2 :: b3 :: t) = validRun fuel t := by
  simp only [validRun, List.getD_cons_zero, List.getD_cons_succ,
    List.drop_succ_cons, List.drop_zero]
  rw [if_neg (by omega : ¬ b0 ≤ 0x7F),
    if_neg (by omega : ¬ (0xC2 ≤ b0 ∧ b0 ≤ 0xDF)),
    if_neg (by omega : ¬ (0xE0 ≤ b0 ∧ b0 ≤ 0xEF)),
    if_pos h0, if_pos h1]

theorem isValidUTF8_cons4 (b0 b1 b2 b3 : Nat) (t : List Nat)
    (h0 : 0xF0 ≤ b0 ∧ b0 ≤ 0xF4)
    (h1 : ((b0 = 0xF0 ∧ 0x90 ≤ b1 ∧ b1 ≤ 0xBF) ∨
           (b0 = 0xF4 ∧ 0x80 ≤ b1 ∧ b1 ≤ 0x8F) ∨
           (b0 ≠ 0xF0 ∧ b0 ≠ 0xF4 ∧ 0x80 ≤ b1 ∧ b1 ≤ 0xBF)) ∧
          (0x80 ≤ b2 ∧ b2 ≤ 0xBF) ∧ (0x80 ≤ b3 ∧ b3 ≤ 0xBF)) :
    isValidUTF8 (b0 :: b1 :: b2 :: b3 :: t) = isValidUTF8 t := by
  simp only [isValidUTF8, List.length_cons]
  rw [validRun_cons4 (t.length + 1 + 1 + 1) b0 b1 b2 b3 t h0 h1]
  exact validRun_fuel _ _ _ (by omega) le_rfl

/-- Prepending the encoding of a scalar value preserves (and reflects)
UTF-8 validity of the remainder. -/
theorem isValidUTF8_encode (c : Nat) (hc : OkCode c) (rest : List Nat) :
    isValidUTF8 (UnicodeToUTF8 c ++ rest) = isValidUTF8 rest := by
  obtain ⟨hc1, hc2⟩ := hc
  by_cases h1 : c ≤ 0x7F
  · rw [UnicodeToUTF8, if_pos h1]
    exact isValidUTF8_cons_ascii _ _ h1
  · by_cases h2 : c ≤ 0x7FF
    · rw [UnicodeToUTF8, if_neg h1, if_pos h2]
      exact isValidUTF8_cons2 _ _ _ (by omega) (by omega)
    · by_cases h3 : c ≤ 0xFFFF
      · rw [UnicodeToUTF8, if_neg h1, if_neg h2, if_pos h3]
        exact isValidUTF8_cons3 _ _ _ _ (by omega) (by omega)
      · rw [UnicodeToUTF8, if_neg h1, if_neg h2, if_neg h3,
          if_pos (by omega : c ≤ 0x10FFFF)]
        exact isValidUTF8_cons4 _ _ _ _ _ (by omega) (by omega)

/-- The emitted bytes of one re-encoding unit: nothing, the bad-chars
handler output, or the re-encoded scalar. -/
theorem utf8Utf8Unit_fst_cases (mode : Nat) (bs : List Nat) :
    (utf8Utf8Unit mode bs).1 = [] ∨
    (utf8Utf8Unit mode bs).1 =
      BadCharsToUTF8 (bs.take (UTF8ToUnicode bs).2) mode ∨
    (utf8Utf8Unit mode bs).1 = UnicodeToUTF8 (UTF8ToUnicode bs).1 := by
  rw [utf8Utf8Unit]
  split_ifs <;> simp

theorem utf8Utf8Unit_consumed (mode : Nat) (bs : List Nat) :
    (utf8Utf8Unit mode bs).2.1 = (UTF8ToUnicode bs).2 := by
  rw [utf8Utf8Unit]
  split_ifs <;> rfl

/-- Replace-mode output of the UTF-8 re-encoding loop is valid UTF-8
provided no unit of the input decodes to a UTF-16 surrogate. -/
theorem utf8Utf8Loop_valid :
    ∀ fuel pos bs, utf8ScalarsOk fuel bs = true →
      isValidUTF8 (utf8Utf8Loop 1 fuel pos bs).1 = true := by
  intro fuel
  induction fuel with
  | zero => intro pos bs _; rfl
  | succ fuel ih =>
    intro pos bs h
    match bs with
    | [] => rfl
    | b :: rest =>
      rw [utf8ScalarsOk] at h
      by_cases hs : 0xD800 ≤ (UTF8ToUnicode (b :: rest)).1 ∧
          (UTF8ToUnicode (b :: rest)).1 ≤ 0xDFFF
      · rw [if_pos hs] at h; simp at h
      · rw [if_neg hs] at h
        have hv := ih (pos + (UTF8ToUnicode (b :: rest)).2)
          ((b :: rest).drop (UTF8ToUnicode (b :: rest)).2) h
        simp only [utf8Utf8Loop]
        rw [utf8Utf8Unit_consumed]
        rcases utf8Utf8Unit_fst_cases 1 (b :: rest) with he | he | he
        · rw [he, List.nil_append]
          exact hv
        · rw [he, show BadCharsToUTF8
              ((b :: rest).take (UTF8ToUnicode (b :: rest)).2) 1 =
              UnicodeToUTF8 0xFFFD from rfl,
            isValidUTF8_encode 0xFFFD (by constructor <;> omega)]
          exact hv
        · rw [he, isValidUTF8_encode _
            ⟨utf8ToUnicode_fst_le (b :: rest), hs⟩]
          exact hv

/-- C2 (amended): with `mode = UTF8_REPLACE`, the output of the UTF-8
codec `UTF8ToUTF8` (the decoder `ToUTF8` dispatches to for the UTF-8
key `ISO_IR_192`) is well-formed UTF-8 provided no unit of the input
decodes to a UTF-16 surrogate; without that proviso the original claim
fails, because lone surrogates pass through (see the counterexample). -/
theorem C2_replace_mode_wellformed (bs : List Nat)
    (h : utf8ScalarsOk bs.length bs = true) :
    isValidUTF8 (UTF8ToUTF8 bs 1).1 = true :=
  utf8Utf8Loop_valid bs.length 0 bs h

theorem C2_replace_mode_wellformed_witness :
    utf8ScalarsOk [0x41, 0xC3, 0xA9].length [0x41, 0xC3, 0xA9] = true ∧
    isValidUTF8 (UTF8ToUTF8 [0x41, 0xC3, 0xA9] 1).1 = true :=
  ⟨by decide, C2_replace_mode_wellformed [0x41, 0xC3, 0xA9] (by decide)⟩

/-- C2 counterexample: the UTF-8 encoding of the lone low surrogate
U+DC00 passes through the replace-mode UTF-8 codec unchanged, and it
is not well-formed UTF-8. -/
theorem C2_counterexample :
    (UTF8ToUTF8 [0xED, 0xB0, 0x80] 1).1 = [0xED, 0xB0, 0x80] ∧
    isValidUTF8 [0xED, 0xB0, 0x80] = false := by decide

/-- C4 (amended): the decoder agrees everywhere with the spec-side
classifier `utf8Classify`, which returns the sentinel 0xFFFF exactly on
the claim's malformed shapes (illegal lead, overlong, unexpected or
out-of-range continuation, value above 0x10FFFF) and 0xFFFE exactly on
end-of-input truncation — with the proviso that an encoded lone low
surrogate decodes to its own code-point value rather than 0xFFFF (see
the counterexample); and a correctly encoded UTF-16 surrogate pair is
combined into a single code point at least 0x10000. -/
theorem C4_decoder_sentinels (bs : List Nat) (hi lo : Nat)
    (rest : List Nat)
    (hhi : 0xD800 ≤ hi ∧ hi ≤ 0xDBFF) (hlo : 0xDC00 ≤ lo ∧ lo ≤ 0xDFFF) :
    UTF8ToUnicode bs = utf8ClassValue (utf8Classify bs) ∧
    (UTF8ToUnicode (UnicodeToUTF8 hi ++ (UnicodeToUTF8 lo ++ rest)) =
      (0x10000 + (hi - 0xD800) * 1024 + (lo - 0xDC00), 6) ∧
     0x10000 ≤ 0x10000 + (hi - 0xD800) * 1024 + (lo - 0xDC00)) := by
  refine ⟨utf8ToUnicode_eq_classify bs, ?_, by omega⟩
  rw [show UnicodeToUTF8 hi =
      [0xE0 + hi / 4096, 0x80 + hi / 64 % 64, 0x80 + hi % 64] from by
    rw [UnicodeToUTF8, if_neg (by omega), if_neg (by omega),
      if_pos (by omega)]]
  rw [show UnicodeToUTF8 lo =
      [0xE0 + lo / 4096, 0x80 + lo / 64 % 64, 0x80 + lo % 64] from by
    rw [UnicodeToUTF8, if_neg (by omega), if_neg (by omega),
      if_pos (by omega)]]
  simp only [List.cons_append, List.nil_append, UTF8ToUnicode,
    utf8Dec3Tail, utf8DecPair]
  rw [show (0xE0 + hi / 4096) % 256 = 0xE0 + hi / 4096 from
      Nat.mod_eq_of_lt (by omega),
    show (0x80 + hi / 64 % 64) % 256 = 0x80 + hi / 64 % 64 from
      Nat.mod_eq_of_lt (by omega),
    show (0x80 + hi % 64) % 256 = 0x80 + hi % 64 from
      Nat.mod_eq_of_lt (by omega),
    show (0xE0 + lo / 4096) % 256 = 0xE0 + lo / 4096 from
      Nat.mod_eq_of_lt (by omega),
    show (0x80 + lo / 64 % 64) % 256 = 0x80 + lo / 64 % 64 from
      Nat.mod_eq_of_lt (by omega),
    show (0x80 + lo % 64) % 256 = 0x80 + lo % 64 from
      Nat.mod_eq_of_lt (by omega)]
  rw [if_neg (by omega : ¬ 0xE0 + hi / 4096 < 0x80),
    if_neg (by omega :
      ¬ (0xC0 ≤ 0xE0 + hi / 4096 ∧ 0xE0 + hi / 4096 < 0xE0)),
    if_pos (by omega :
      0xE0 ≤ 0xE0 + hi / 4096 ∧ 0xE0 + hi / 4096 < 0xF0),
    if_neg (by omega :
      ¬ (((0xE0 + hi / 4096) % 16 = 0 ∧ (0x80 + hi / 64 % 64) % 64 < 32) ∨
         ¬(0x80 ≤ 0x80 + hi / 64 % 64 ∧ 0x80 + hi / 64 % 64 < 0xC0))),
    if_neg (by omega :
      ¬ ¬(0x80 ≤ 0x80 + hi % 64 ∧ 0x80 + hi % 64 < 0xC0)),
    if_pos (by omega :
      0xD800 ≤ ((0xE0 + hi / 4096) % 16 * 64 +
          (0x80 + hi / 64 % 64) % 64) * 64 + (0x80 + hi % 64) % 64 ∧
        ((0xE0 + hi / 4096) % 16 * 64 +
          (0x80 + hi / 64 % 64) % 64) * 64 + (0x80 + hi % 64) % 64 <
        0xDC00),
    if_neg (by omega : ¬ (0xE0 + lo / 4096 ≠ 0xED)),
    if_neg (by omega :
      ¬ ¬(0xB0 ≤ 0x80 + lo / 64 % 64 ∧ 0x80 + lo / 64 % 64 < 0xC0)),
    if_pos (by omega :
      0x80 ≤ 0x80 + lo % 64 ∧ 0x80 + lo % 64 < 0xC0)]
  simp only [Prod.mk.injEq, and_true]
  omega

theorem C4_decoder_sentinels_witness :
    (0xD800 ≤ 0xD800 ∧ 0xD800 ≤ 0xDBFF) ∧
    (0xDC00 ≤ 0xDC00 ∧ 0xDC00 ≤ 0xDFFF) ∧
    (UTF8ToUnicode [0x41] = utf8ClassValue (utf8Classify [0x41]) ∧
     (UTF8ToUnicode (UnicodeToUTF8 0xD800 ++ (UnicodeToUTF8 0xDC00 ++ [])) =
        (0x10000 + (0xD800 - 0xD800) * 1024 + (0xDC00 - 0xDC00), 6) ∧
      0x10000 ≤ 0x10000 + (0xD800 - 0xD800) * 1024 + (0xDC00 - 0xDC00))) :=
  ⟨by decide, by decide,
    C4_decoder_sentinels [0x41] 0xD800 0xDC00 [] (by decide) (by decide)⟩

/-- C4 counterexample: the 3-byte sequence ED B0 80 encodes the lone
low surrogate U+DC00; it is malformed UTF-8 (RFC 3629 excludes
surrogates), yet the decoder returns the surrogate value 0xDC00 with
3 bytes consumed, not the malformed sentinel 0xFFFF. -/
theorem C4_counterexample :
    isValidUTF8 [0xED, 0xB0, 0x80] = false ∧
    UTF8ToUnicode [0xED, 0xB0, 0x80] = (0xDC00, 3) := by decide

/-- A well-formed UTF-8 byte string is a concatenation of canonical
encodings of scalar values. -/
theorem validRun_decomp :
    ∀ fuel bs, bs.length ≤ fuel → validRun fuel bs = true →
      ∃ cs : List Nat, bs = (cs.map UnicodeToUTF8).flatten ∧
        ∀ c ∈ cs, OkCode c := by
  intro fuel
  induction fuel with
  | zero =>
    intro bs h _
    have hb : bs = [] := List.eq_nil_of_length_eq_zero (by omega)
    exact ⟨[], by simp [hb], by simp⟩
  | succ fuel ih =>
    intro bs h hv
    match bs with
    | [] => exact ⟨[], rfl, by simp⟩
    | b0 :: rest =>
      simp only [validRun] at hv
      simp only [List.length_cons] at h
      by_cases c1 : b0 ≤ 0x7F
      · rw [if_pos c1] at hv
        obtain ⟨cs, hbs, hcs⟩ := ih rest (by omega) hv
        refine ⟨b0 :: cs, ?_, ?_⟩
        · rw [List.map_cons, List.flatten_cons,
            show UnicodeToUTF8 b0 = [b0] from by
              rw [UnicodeToUTF8, if_pos c1],
            ← hbs]
          rfl
        · intro c hc
          rcases List.mem_cons.mp hc with rfl | hmem
          · exact ⟨by omega, by omega⟩
          · exact hcs c hmem
      · rw [if_neg c1] at hv
        by_cases c2 : 0xC2 ≤ b0 ∧ b0 ≤ 0xDF
        · rw [if_pos c2] at hv
          split at hv
          next hcond =>
            rcases rest with _ | ⟨b1, rest1⟩
            · simp only [List.getD_nil] at hcond
              omega
            · simp only [List.getD_cons_zero] at hcond
              simp only [List.drop_succ_cons, List.drop_zero] at hv
              simp only [List.length_cons] at h
              obtain ⟨cs, hbs, hcs⟩ := ih rest1 (by omega) hv
              refine ⟨((b0 - 0xC0) * 64 + (b1 - 0x80)) :: cs, ?_, ?_⟩
              · rw [List.map_cons, List.flatten_cons,
                  show UnicodeToUTF8 ((b0 - 0xC0) * 64 + (b1 - 0x80)) =
                      [b0, b1] from by
                    rw [UnicodeToUTF8, if_neg (by omega), if_pos (by omega)]
                    simp only [List.cons.injEq, and_true]
                    exact ⟨by omega, by omega⟩,
                  ← hbs]
                rfl
              · intro c hc
                rcases List.mem_cons.mp hc with rfl | hmem
                · exact ⟨by omega, by omega⟩
                · exact hcs c hmem
          next hcond => simp at hv
        · rw [if_neg c2] at hv
          by_cases c3 : 0xE0 ≤ b0 ∧ b0 ≤ 0xEF
          · rw [if_pos c3] at hv
            split at hv
            next hcond =>
              rcases rest with _ | ⟨b1, _ | ⟨b2, rest2⟩⟩
              · simp only [List.getD_nil] at hcond
                omega
              · simp only [List.getD_cons_zero, List.getD_cons_succ,
                  List.getD_nil] at hcond
                omega
              · simp only [List.getD_cons_zero, List.getD_cons_succ] at hcond
                simp only [List.drop_succ_cons, List.drop_zero] at hv
                simp only [List.length_cons] at h
                obtain ⟨cs, hbs, hcs⟩ := ih rest2 (by omega) hv
                refine ⟨((b0 - 0xE0) * 4096 + (b1 - 0x80) * 64 +
                    (b2 - 0x80)) :: cs, ?_, ?_⟩
                · rw [List.map_cons, List.flatten_cons,
                    show UnicodeToUTF8 ((b0 - 0xE0) * 4096 +
                        (b1 - 0x80) * 64 + (b2 - 0x80)) = [b0, b1, b2] from by
                      rw [UnicodeToUTF8, if_neg (by omega),
                        if_neg (by omega), if_pos (by omega)]
                      simp only [List.cons.injEq, and_true]
                      exact ⟨by omega, by omega, by omega⟩,
                    ← hbs]
                  rfl
                · intro c hc
                  rcases List.mem_cons.mp hc with rfl | hmem
                  · exact ⟨by omega, by omega⟩
                  · exact hcs c hmem
            next hcond => simp at hv
          · rw [if_neg c3] at hv
            by_cases c4 : 0xF0 ≤ b0 ∧ b0 ≤ 0xF4
            · rw [if_pos c4] at hv
              split at hv
              next hcond =>
                rcases rest with _ | ⟨b1, _ | ⟨b2, _ | ⟨b3, rest3⟩⟩⟩
                · simp only [List.getD_nil] at hcond
                  omega
                · simp only [List.getD_cons_zero, List.getD_cons_succ,
                    List.getD_nil] at hcond
                  omega
                · simp only [List.getD_cons_zero, List.getD_cons_succ,
                    List.getD_nil] at hcond
                  omega
                · simp only [List.getD_cons_zero, List.getD_cons_succ]
                    at hcond
                  simp only [List.drop_succ_cons, List.drop_zero] at hv
                  simp only [List.length_cons] at h
                  obtain ⟨cs, hbs, hcs⟩ := ih rest3 (by omega) hv
                  refine ⟨((b0 - 0xF0) * 262144 + (b1 - 0x80) * 4096 +
                      (b2 - 0x80) * 64 + (b3 - 0x80)) :: cs, ?_, ?_⟩
                  · rw [List.map_cons, List.flatten_cons,
                      show UnicodeToUTF8 ((b0 - 0xF0) * 262144 +
                          (b1 - 0x80) * 4096 + (b2 - 0x80) * 64 +
                          (b3 - 0x80)) = [b0, b1, b2, b3] from by
                        rw [UnicodeToUTF8, if_neg (by omega),
                          if_neg (by omega), if_neg (by omega),
                          if_pos (by omega)]
                        simp only [List.cons.injEq, and_true]
                        exact ⟨by omega, by omega, by omega, by omega⟩,
                      ← hbs]
                    rfl
                  · intro c hc
                    rcases List.mem_cons.mp hc with rfl | hmem
                    · exact ⟨by omega, by omega⟩
                    · exact hcs c hmem
              next hcond => simp at hv
            · rw [if_neg c4] at hv
              simp at hv

/-- C9: case folding is idempotent — for every byte string that is
valid UTF-8, applying `CaseFoldedUTF8` (UTF-8 key) to the output of
`CaseFoldedUTF8` returns that output unchanged. -/
theorem C9_casefold_idempotent (bs : List Nat)
    (h : isValidUTF8 bs = true) :
    CaseFoldedUTF8 (CaseFoldedUTF8 bs) = CaseFoldedUTF8 bs := by
  obtain ⟨cs, hb, hcs⟩ := validRun_decomp bs.length bs le_rfl h
  subst hb
  unfold CaseFoldedUTF8
  rw [caseFoldLoop_chunks cs
    (fun c hc => ⟨(hcs c hc).1, fun hx => (hcs c hc).2 ⟨hx.1, by omega⟩⟩)
    _ le_rfl]
  exact caseFoldLoop_idem cs hcs

theorem C9_casefold_idempotent_witness :
    isValidUTF8 [0x41, 0x42] = true ∧
    CaseFoldedUTF8 (CaseFoldedUTF8 [0x41, 0x42]) =
      CaseFoldedUTF8 [0x41, 0x42] :=
  ⟨by decide, C9_casefold_idempotent [0x41, 0x42] (by decide)⟩

/-- C5: decoding the 4-byte GB18030 sequence 84 31 A4 37 in replace
mode emits exactly one U+FFFD (UTF-8 EF BF BD) and reports no error —
the returned offset equals the input length 4.  Modelled from the
spec: the conversion table (not under `src/`) maps index 63357, which
is what the decoder computes for this sequence, to U+FFFD, since the
spec states this sequence is the canonical encoding of U+FFFD. -/
theorem C5_gb18030_replacement (table : Nat → Nat)
    (ht : table 63357 = 0xFFFD) :
    GB18030ToUTF8 table [0x84, 0x31, 0xA4, 0x37] 1 =
      ([0xEF, 0xBF, 0xBD], 4) := by
  have hcode : gb18030Code table (0x84 % 256) (0x31 % 256) [0xA4, 0x37] =
      (0xFFFD, 4) := by
    simp [gb18030Code, ht]
  unfold GB18030ToUTF8
  simp [gb18030Loop, hcode, UnicodeToUTF8]

theorem C5_gb18030_replacement_witness :
    (fun _ => 0xFFFD : Nat → Nat) 63357 = 0xFFFD ∧
    GB18030ToUTF8 (fun _ => 0xFFFD) [0x84, 0x31, 0xA4, 0x37] 1 =
      ([0xEF, 0xBF, 0xBD], 4) :=
  ⟨rfl, C5_gb18030_replacement (fun _ => 0xFFFD) rfl⟩

/-- C6: during ISO-2022 decoding, a control run consisting of CR LF
resets the G0-G3 designations and the state flags to the initial
values `InitISO2022` derives from the declared key, for every prior
register content; a run of CR alone or LF alone leaves the registers
unchanged (and reports no error). -/
theorem C6_crlf_resets (key pos : Nat) (st : Iso2022St) :
    iso2022Controls key st 0 pos [0x0D, 0x0A] = (InitISO2022 key, none) ∧
    iso2022Controls key st 0 pos [0x0D] = (st, none) ∧
    iso2022Controls key st 0 pos [0x0A] = (st, none) := by
  refine ⟨?_, rfl, rfl⟩
  simp [iso2022Controls]

/-- C10: for every prior state word, classifying the two-byte escape
whose first intermediate byte is '+' (single-byte 94-character
designation of G3) returns CODE_G3D but clears the MULTIBYTE_G2
(0x400) and CHARSET96_G2 (0x4000) bits, leaving the MULTIBYTE_G3
(0x800) and CHARSET96_G3 (0x8000) bits unchanged. -/
theorem C10_plus_escape_clears_g2 (state f : Nat) :
    (EscapeCode [0x2B, f] state).1 = EscapeType.CODE_G3D ∧
    (EscapeCode [0x2B, f] state).2 =
      bitClear (bitClear state 0x400) 0x4000 ∧
    bitGet (EscapeCode [0x2B, f] state).2 0x400 = 0 ∧
    bitGet (EscapeCode [0x2B, f] state).2 0x4000 = 0 ∧
    bitGet (EscapeCode [0x2B, f] state).2 0x800 = bitGet state 0x800 ∧
    bitGet (EscapeCode [0x2B, f] state).2 0x8000 = bitGet state 0x8000 := by
  have he : EscapeCode [0x2B, f] state =
      (.CODE_G3D, bitClear (bitClear state 0x400) 0x4000) := rfl
  rw [he]
  refine ⟨rfl, rfl, ?_, ?_, ?_, ?_⟩ <;>
    · simp only [bitGet, bitClear]
      omega

theorem nextBackslashGB_boundary :
    ∀ fuel pos bs, nextBackslashGB fuel pos bs ∈ gbBoundaries fuel pos bs := by
  intro fuel
  induction fuel with
  | zero => intro pos bs; simp [nextBackslashGB, gbBoundaries]
  | succ fuel ih =>
    intro pos bs
    match bs with
    | [] => simp [nextBackslashGB, gbBoundaries]
    | c :: rest =>
      simp only [nextBackslashGB, gbBoundaries]
      by_cases h0 : c % 256 = 0
      · rw [if_pos h0]
        exact List.mem_cons_self _ _
      · rw [if_neg h0]
        by_cases h1 : 0x81 ≤ c % 256
        · rw [if_pos h1, if_pos h1]
          match rest with
          | [] => exact List.mem_cons_of_mem _ (List.mem_cons_self _ _)
          | d :: rest2 =>
            dsimp only
            by_cases h2 : 0x21 ≤ d % 256
            · rw [if_pos h2, if_pos h2]
              exact List.mem_cons_of_mem _ (ih _ _)
            · rw [if_neg h2, if_neg h2]
              exact List.mem_cons_of_mem _ (ih _ _)
        · rw [if_neg h1, if_neg h1]
          by_cases h2 : c % 256 ≠ 0x5C
          · rw [if_pos h2]
            exact List.mem_cons_of_mem _ (ih _ _)
          · rw [if_neg h2]
            exact List.mem_cons_self _ _

/-- C8 (amended): on the input C4 5C 41 with the GB18030 key,
`NextBackslash` skips the 0x5C because it is the trail byte of the
double-byte character C4 5C, finds no backslash, and returns 3 (the
input length) — not 2 as the claim states; and in general the scan
always returns an offset that is a character boundary, never an
offset inside the trailing byte of a double-byte character. -/
theorem C8_nextbackslash (fuel pos : Nat) (bs : List Nat) :
    nextBackslashGB 3 0 [0xC4, 0x5C, 0x41] = 3 ∧
    nextBackslashGB fuel pos bs ∈ gbBoundaries fuel pos bs :=
  ⟨by decide, nextBackslashGB_boundary fuel pos bs⟩

/-- C8 counterexample: the claimed return value 2 is wrong; the scan
returns 3. -/
theorem C8_counterexample :
    nextBackslashGB 3 0 [0xC4, 0x5C, 0x41] = 3 ∧
    nextBackslashGB 3 0 [0xC4, 0x5C, 0x41] ≠ 2 := by decide

/-- C7 (amended): encoding "한" (U+D55C, UTF-8 ED 95 9C) with the
EUC-KR key yields the two-byte precomposed code C7 D1, not the 8-byte
jamo sequence — the jamo fallback is taken only for hangul absent from
KS X 1001, and then it would produce A4 D4 A4 BE A4 BF A4 A4 (lead
ᄒ = index 18, vowel ᅡ = 0, trail ᆫ = 4), not the claimed
A4 D4 A4 BB A4 C5 A4 A1; and decoding the claimed 8-byte sequence
composes lead index 15, vowel 6, trail 1 into U+CF1D (or compatibility
jamo when the precomposed form is in the table), never "한" — for
every table and hangul-membership oracle.  Modelled from the spec: 한
is expressible in KS X 1001 (its code C7 D1 gives reverse-table index
(0xC7-0xA1)*94 + (0xD1-0xA1) = 3620), hence `ht`; `ht2` describes a
table in which 한 is absent, showing what the jamo fallback emits. -/
theorem C7_euckr_hangul (tblE tblE2 tblD : Nat → Nat) (mem : Nat → Bool)
    (mode : Nat)
    (ht : tblE 0xD55C = 3620) (ht2 : 8836 ≤ tblE2 0xD55C) :
    (UTF8ToEUCKR tblE [0xED, 0x95, 0x9C]).1 = [0xC7, 0xD1] ∧
    (UTF8ToEUCKR tblE2 [0xED, 0x95, 0x9C]).1 =
      [0xA4, 0xD4, 0xA4, 0xBE, 0xA4, 0xBF, 0xA4, 0xA4] ∧
    (EUCKRToUTF8 tblD mem [0xA4, 0xD4, 0xA4, 0xBB, 0xA4, 0xC5, 0xA4, 0xA1]
        mode).1 ≠ [0xED, 0x95, 0x9C] := by
  have hdec : UTF8ToUnicode [0xED, 0x95, 0x9C] = (0xD55C, 3) := by decide
  refine ⟨?_, ?_, ?_⟩
  · unfold UTF8ToEUCKR
    simp [utf8ToEuckrLoop, utf8ToEuckrUnit, hdec, ht]
  · unfold UTF8ToEUCKR
    simp [utf8ToEuckrLoop, utf8ToEuckrUnit, hdec, Nat.not_lt.mpr ht2,
      euckrTableL, euckrTableT]
  · unfold EUCKRToUTF8
    rcases hm : mem (0xAC00 + (15 * 21 + 6) * 28 + 1) with _ | _ <;>
      simp [euckrLoop, euckrUnit, euckrJamo, euckrFinish, euckrJamoL,
        euckrJamoT, UnicodeToUTF8, hm]

theorem C7_euckr_hangul_witness :
    (fun c => if c = 0xD55C then 3620 else 0 : Nat → Nat) 0xD55C = 3620 ∧
    8836 ≤ (fun _ => 8836 : Nat → Nat) 0xD55C ∧
    ((UTF8ToEUCKR (fun c => if c = 0xD55C then 3620 else 0)
        [0xED, 0x95, 0x9C]).1 = [0xC7, 0xD1] ∧
     (UTF8ToEUCKR (fun _ => 8836) [0xED, 0x95, 0x9C]).1 =
       [0xA4, 0xD4, 0xA4, 0xBE, 0xA4, 0xBF, 0xA4, 0xA4] ∧
     (EUCKRToUTF8 (fun _ => 0) (fun _ => false)
         [0xA4, 0xD4, 0xA4, 0xBB, 0xA4, 0xC5, 0xA4, 0xA1] 1).1 ≠
       [0xED, 0x95, 0x9C]) :=
  ⟨by decide, by decide,
    C7_euckr_hangul (fun c => if c = 0xD55C then 3620 else 0)
      (fun _ => 8836) (fun _ => 0) (fun _ => false) 1
      (by decide) (by decide)⟩

/-- C7 counterexample: with the expressible-한 table the encoder does
not produce the claimed jamo sequence, and decoding the claimed jamo
sequence does not give "한" for either value of the hangul-membership
oracle. -/
theorem C7_counterexample :
    (UTF8ToEUCKR (fun c => if c = 0xD55C then 3620 else 0)
        [0xED, 0x95, 0x9C]).1 ≠
      [0xA4, 0xD4, 0xA4, 0xBB, 0xA4, 0xC5, 0xA4, 0xA1] ∧
    (EUCKRToUTF8 (fun _ => 0x3164) (fun _ => true)
        [0xA4, 0xD4, 0xA4, 0xBB, 0xA4, 0xC5, 0xA4, 0xA1] 1).1 ≠
      [0xED, 0x95, 0x9C] ∧
    (EUCKRToUTF8 (fun _ => 0x3164) (fun _ => false)
        [0xA4, 0xD4, 0xA4, 0xBB, 0xA4, 0xC5, 0xA4, 0xA1] 1).1 ≠
      [0xED, 0x95, 0x9C] := by decide

end VtkDicom
